import Mathlib

/-!
RisWidget renderer: a shallow embedding of `Renderer.cpp`.

The definitions below follow `src/cpp/Renderer.cpp` function by function.
Machine integers are natural numbers or integers; a `GLushort` sample is a
natural number below `65536`.
-/

namespace RisWidget

/-! ## Extrema scan (`Renderer::findImageExtrema`) -/

/-- Raw pixel data, `std::vector<GLushort>`: row-major 16-bit samples. -/
abbrev ImageData := List Nat

/-- Every sample of the image fits a `GLushort`. -/
def isGLushortData (imageData : ImageData) : Prop := ∀ p ∈ imageData, p < 65536

/-- One iteration of the range-for loop of `findImageExtrema`:
`if(p < ret.first) ret.first = p; else if(p > ret.second) ret.second = p;`. -/
def findImageExtremaStep (ret : Nat × Nat) (p : Nat) : Nat × Nat :=
  if p < ret.1 then (p, ret.2)
  else if p > ret.2 then (ret.1, p)
  else ret

/-- Embedding of `Renderer::findImageExtrema`: the pair is `(first, second)`, starting at
`{65535, 0}`; an image of size one returns its pixel twice, any other image
is folded through the `if / else if` step. -/
def findImageExtrema (imageData : ImageData) : Nat × Nat :=
  if imageData.length = 1 then (imageData.headD 0, imageData.headD 0)
  else imageData.foldl findImageExtremaStep (65535, 0)

/-! ## Device registry data (`OpenClDeviceListEntry`, OpenCL enumeration) -/

/-- The constant `CL_DEVICE_TYPE_CPU` of the OpenCL header: bit 1 of the `cl_device_type` bit-field. -/
def CL_DEVICE_TYPE_CPU : Nat := 2

/-- The constant `CL_DEVICE_TYPE_GPU` of the OpenCL header: bit 2 of the `cl_device_type` bit-field. -/
def CL_DEVICE_TYPE_GPU : Nat := 4

/-- The constant `CL_DEVICE_TYPE_ACCELERATOR` of the OpenCL header: bit 3 of the `cl_device_type` bit-field. -/
def CL_DEVICE_TYPE_ACCELERATOR : Nat := 8

/-- What `cl::Platform::getDevices` reports for one device: its handle and the
three `getInfo` fields read by `refreshOpenClDeviceListSlot`. -/
structure ClDevice where
  handle : Nat
  type : Nat
  name : String
  version : String
deriving DecidableEq

/-- What `cl::Platform::get` reports for one platform. -/
structure ClPlatform where
  handle : Nat
  devices : List ClDevice
deriving DecidableEq

/-- An `OpenClDeviceListEntry`: `{description, type, platform, device}` as pushed
by `refreshOpenClDeviceListSlot`.  The struct and its `operator==` are
declared in `Renderer.h`, which is not among the sources; following the
specification ("structural equality over description+type+handles") the
comparison of entries is the derived structural equality. -/
structure OpenClDeviceListEntry where
  description : String
  type : Nat
  platform : Nat
  device : Nat
deriving DecidableEq

/-- Signals the renderer emits to the application. -/
inductive Signal where
  | openClDeviceListChanged (descriptions : List String)
  | currentOpenClDeviceListIndexChanged (index : Int)
deriving DecidableEq

/-- A `cl::Context` instance: `serial` is its allocation number, `glInterop`
tells whether it was created with the GL sharing properties. -/
structure ClContext where
  serial : Nat
  platform : Nat
  device : Nat
  glInterop : Bool
deriving DecidableEq

/-- The `RisWidgetException`s thrown by the modelled functions. -/
inductive RisWidgetException where
  | noPlatformAvailable
  | noDeviceAvailable
  | indexOutOfRange (count : Nat)
  | unknownView
  | threadInitCalledTwice
  | invalidImageSize
deriving DecidableEq

/-- A `cl::CommandQueue` instance: the context and the device it was created
for. -/
structure ClCommandQueue where
  context : Nat
  device : Nat
deriving DecidableEq

/-- A `cl::Kernel` of the program built from `histogram.cl`: its function name
and the context the program was created in.  The argument values bound with
`setArg` are not modelled. -/
structure ClKernel where
  name : String
  context : Nat
deriving DecidableEq

/-- Smart-pointer members of `Renderer` that the modelled code dereferences. -/
inductive Member where
  | m_openClDevice
  | m_openClContext
  | m_openClCq
  | m_histoBlocksKern
  | m_histoReduceKern
  | m_image
  | m_imageCl
  | m_histogramClBuffer
  | m_histogramBlocks
deriving DecidableEq

/-- How a call can fail to complete: a thrown `RisWidgetException`, the
dereference of an empty `unique_ptr` / `shared_ptr`, or `operator[]` past the
end of `m_openClDeviceList` (both undefined behaviour). -/
inductive Fault where
  | thrown (e : RisWidgetException)
  | nullDereference (member : Member)
  | deviceListIndexOutOfBounds (index : Int) (size : Nat)
deriving DecidableEq

/-- The views `updateView` / `updateViewSlot` can be handed: the renderer's
image view, its histogram view, or any other `View*`. -/
inductive View where
  | imageView
  | histogramView
  | otherView
deriving DecidableEq

/-- The type `QSize`: two `int`s. -/
structure QSize where
  width : Int
  height : Int
deriving DecidableEq

/-! ## GPU resources held by the renderer -/

/-- The `QOpenGLTexture` behind `m_image`: `serial` is its allocation number. -/
structure QOpenGLTexture where
  serial : Nat
  created : Bool
  width : Int
  height : Int
  linearFilter : Bool
  data : ImageData
deriving DecidableEq

/-- The `cl::Image2DGL` behind `m_imageCl`: a compute-side view of a texture. -/
structure ClImage2DGL where
  serial : Nat
  context : Nat
  texture : Nat
deriving DecidableEq

/-- The GL buffer named by `m_histogramGlBuffer`. -/
structure GlBuffer where
  serial : Nat
  byteCount : Nat
deriving DecidableEq

/-- The `cl::BufferGL` behind `m_histogramClBuffer`. -/
structure ClBufferGL where
  serial : Nat
  context : Nat
  glBuffer : Nat
deriving DecidableEq

/-- A plain `cl::Buffer` (`m_histogramBlocks`, `m_histogramZeroBlock`). -/
structure ClBuffer where
  serial : Nat
  context : Nat
  byteCount : Nat
deriving DecidableEq

/-- The `XxBlocksConstArgs` struct local to `execHistoCalc`; every field is a `cl_uint`. -/
structure XxBlocksConstArgs where
  imageSize : Nat × Nat
  invocationRegionSize : Nat × Nat
  binCount : Nat
  paddedBlockSize : Nat
deriving DecidableEq

/-- The `cl::Buffer` behind `m_histoXxKernArgs`.  `written` tells whether the
constants have been stored into it; `args` are the constants stored, and
carry no information while `written` is false. -/
structure KernArgsBuffer where
  serial : Nat
  context : Nat
  written : Bool
  args : XxBlocksConstArgs
deriving DecidableEq

/-- One draw call as its caller issued it: the view drawn and the value the
pending flag of that view has at the moment of the call. -/
structure DrawRecord where
  view : View
  updatePending : Bool
deriving DecidableEq

/-- The `std::future` behind `m_imageExtremaFuture` when it is not the null
future: the result of `std::async(&Renderer::findImageExtrema, imageData)`,
recorded by the pixel data the scan was started on. -/
structure ExtremaFuture where
  imageData : ImageData
deriving DecidableEq

/-- The arguments of one `_newImage(imageData, imageSize, filter)` emission. -/
structure NewImageRequest where
  imageData : ImageData
  imageSize : QSize
  filter : Bool
deriving DecidableEq

/-- The state of a `Renderer`.  Fields named `m_...` are the members of the
class; an `Option` is a smart pointer (`none` = empty) or a GL name (`none` =
the `numeric_limits<GLuint>::max()` sentinel).  The remaining fields record
what the calls do outside the object: `imageViewContext` and
`histogramViewContext` are `m_imageView->m_context` and
`m_histogramView->m_context` being non-null, `updateViewQueue` holds the
queued `_updateView` emissions not yet delivered, `newImageQueue` the queued
`_newImage` emissions not yet delivered, `emitted` the signals sent
to the application, `imageDrawCalls` / `histoDrawCalls` / `histoCalcPasses`
count the completed `execImageDraw` / `execHistoDraw` / `execHistoCalc`
calls, `drawLog` lists the draw calls in the order they were issued, and
`nextSerial` numbers the allocations. -/
structure Renderer where
  m_threadInited : Bool
  m_openClDeviceList : List OpenClDeviceListEntry
  m_currOpenClDeviceListEntry : Int
  m_openClDevice : Option Nat
  m_openClContext : Option ClContext
  m_openClCq : Option ClCommandQueue
  m_histoBlocksKern : Option ClKernel
  m_histoReduceKern : Option ClKernel
  m_imageViewUpdatePending : Bool
  m_histogramViewUpdatePending : Bool
  m_imageData : ImageData
  m_imageSize : QSize
  m_image : Option QOpenGLTexture
  m_imageCl : Option ClImage2DGL
  m_histogramBinCount : Nat
  m_histogramGlBuffer : Option GlBuffer
  m_histogram : Option Nat
  m_histogramClBuffer : Option ClBufferGL
  m_histogramBlocks : Option ClBuffer
  m_histogramZeroBlock : Option ClBuffer
  m_histoXxKernArgs : Option KernArgsBuffer
  m_histogramData : List Nat
  m_imageExtremaFuture : Option ExtremaFuture
  imageViewContext : Bool
  histogramViewContext : Bool
  updateViewQueue : List View
  newImageQueue : List NewImageRequest
  emitted : List Signal
  imageDrawCalls : Nat
  histoDrawCalls : Nat
  histoCalcPasses : Nat
  drawLog : List DrawRecord
  nextSerial : Nat
deriving DecidableEq

/-- The result of a call on a renderer: the state it leaves, or the fault
that stopped it together with the state at that point. -/
abbrev Outcome := Except (Fault × Renderer) Renderer

/-- The renderer state a call leaves behind, whether it completed or not. -/
def Outcome.state (o : Outcome) : Renderer :=
  match o with
  | .ok r => r
  | .error (_, r) => r

/-- The fault that stopped a call, if any. -/
def Outcome.fault (o : Outcome) : Option Fault :=
  match o with
  | .ok _ => none
  | .error (f, _) => some f

/-- The value `std::numeric_limits<int>::min()`. -/
def INT_MIN : Int := -2147483648

/-- The state `Renderer::Renderer` leaves: current device index `INT_MIN`,
image size `(0, 0)`, bin count 2048, both GL names at the sentinel, a
snapshot of 2048 zeros, both pending flags false, every smart pointer
empty. -/
def Renderer.constructed : Renderer where
  m_threadInited := false
  m_openClDeviceList := []
  m_currOpenClDeviceListEntry := INT_MIN
  m_openClDevice := none
  m_openClContext := none
  m_openClCq := none
  m_histoBlocksKern := none
  m_histoReduceKern := none
  m_imageViewUpdatePending := false
  m_histogramViewUpdatePending := false
  m_imageData := []
  m_imageSize := QSize.mk 0 0
  m_image := none
  m_imageCl := none
  m_histogramBinCount := 2048
  m_histogramGlBuffer := none
  m_histogram := none
  m_histogramClBuffer := none
  m_histogramBlocks := none
  m_histogramZeroBlock := none
  m_histoXxKernArgs := none
  m_histogramData := List.replicate 2048 0
  m_imageExtremaFuture := none
  imageViewContext := false
  histogramViewContext := false
  updateViewQueue := []
  newImageQueue := []
  emitted := []
  imageDrawCalls := 0
  histoDrawCalls := 0
  histoCalcPasses := 0
  drawLog := []
  nextSerial := 0

/-! ## Device registry operations -/

/-- The `switch(type)` of `refreshOpenClDeviceListSlot`. -/
def deviceTypeName (type : Nat) : String :=
  if type = CL_DEVICE_TYPE_CPU then "CPU"
  else if type = CL_DEVICE_TYPE_GPU then "GPU"
  else if type = CL_DEVICE_TYPE_ACCELERATOR then "Special Purpose Accelerator"
  else "[unknown]"

/-- The entry `refreshOpenClDeviceListSlot` pushes for one device of one
platform: description `"%1 (%2) (%3)"` of name, type name and version, with
`[unnamed]` / `[unknown]` for empty strings. -/
def deviceListEntry (platform : ClPlatform) (device : ClDevice) : OpenClDeviceListEntry where
  description :=
    (if device.name = "" then "[unnamed]" else device.name) ++ " (" ++
      deviceTypeName device.type ++ ") (" ++
      (if device.version = "" then "[unknown]" else device.version) ++ ")"
  type := device.type
  platform := platform.handle
  device := device.handle

/-- Embedding of `Renderer::refreshOpenClDeviceListSlot`, given what the OpenCL runtime
enumerates: throws when there is no platform, else rebuilds the list and, if
it differs from the stored one, stores it and emits `openClDeviceListChanged`. -/
def refreshOpenClDeviceListSlot (platforms : List ClPlatform) (r : Renderer) : Outcome :=
  if platforms.isEmpty then
    .error (.thrown .noPlatformAvailable, r)
  else
    let openClDeviceList :=
      (platforms.map (fun platform => platform.devices.map (deviceListEntry platform))).flatten
    if openClDeviceList ≠ r.m_openClDeviceList then
      .ok { r with
        m_openClDeviceList := openClDeviceList
        emitted := r.emitted ++
          [Signal.openClDeviceListChanged (openClDeviceList.map (fun entry => entry.description))] }
    else
      .ok r

/-- Embedding of `Renderer::setCurrentOpenClDeviceListIndexSlot`: nothing happens when the
new index equals the current one; otherwise an index outside `[0, size)`
throws, and an index inside replaces the context by a new one for that
entry, stores the index and emits `currentOpenClDeviceListIndexChanged`.
The `cl::Context` constructor is taken to succeed. -/
def setCurrentOpenClDeviceListIndexSlot (newOpenClDeviceListIndex : Int) (r : Renderer) : Outcome :=
  if newOpenClDeviceListIndex ≠ r.m_currOpenClDeviceListEntry then
    if newOpenClDeviceListIndex < 0 ∨
        newOpenClDeviceListIndex.toNat ≥ r.m_openClDeviceList.length then
      .error (.thrown (.indexOutOfRange r.m_openClDeviceList.length), r)
    else
      match r.m_openClDeviceList[newOpenClDeviceListIndex.toNat]? with
      | none =>
        .error (.deviceListIndexOutOfBounds newOpenClDeviceListIndex r.m_openClDeviceList.length, r)
      | some entry =>
        .ok { r with
          m_openClContext := some
            { serial := r.nextSerial, platform := entry.platform, device := entry.device,
              glInterop := false }
          nextSerial := r.nextSerial + 1
          m_currOpenClDeviceListEntry := newOpenClDeviceListIndex
          emitted := r.emitted ++
            [Signal.currentOpenClDeviceListIndexChanged newOpenClDeviceListIndex] }
  else
    .ok r

/-- One of the four range-for loops of `makeClContext` over the device list.
The pair is `(index, i)`: on the first entry satisfying `test` the loop sets
`index = i` and breaks, otherwise it increments `i`.  The variables are those
of the enclosing function, so the loop starts from the values the previous
loop left. -/
def makeClContextLoop (test : OpenClDeviceListEntry → Bool) :
    List OpenClDeviceListEntry → Int × Int → Int × Int
  | [], vars => vars
  | entry :: rest, (index, i) =>
    if test entry then (i, i) else makeClContextLoop test rest (index, i + 1)

/-- The device ranking of `makeClContext`: `int index = -1, i = 0;` followed by
the four nested loops (GPU bit set, accelerator bit set, CPU bit clear, CPU
bit set), each entered only while `index == -1`.  `none` is the throw of
"No OpenCL device available.". -/
def makeClContextIndex (openClDeviceList : List OpenClDeviceListEntry) : Option Int :=
  let vars := makeClContextLoop (fun entry => entry.type &&& CL_DEVICE_TYPE_GPU != 0)
    openClDeviceList (-1, 0)
  if vars.1 = -1 then
    let vars := makeClContextLoop (fun entry => entry.type &&& CL_DEVICE_TYPE_ACCELERATOR != 0)
      openClDeviceList vars
    if vars.1 = -1 then
      let vars := makeClContextLoop (fun entry => entry.type &&& CL_DEVICE_TYPE_CPU == 0)
        openClDeviceList vars
      if vars.1 = -1 then
        let vars := makeClContextLoop (fun entry => entry.type &&& CL_DEVICE_TYPE_CPU != 0)
          openClDeviceList vars
        if vars.1 = -1 then none else some vars.1
      else some vars.1
    else some vars.1
  else some vars.1

/-- Embedding of `Renderer::makeClContext`, given what the OpenCL runtime enumerates:
refresh the device list, rank the devices, read `m_openClDeviceList[index]`,
create device, GL-sharing context and command queue, store the index and emit
`currentOpenClDeviceListIndexChanged`.  The OpenCL constructors are taken to
succeed. -/
def makeClContext (platforms : List ClPlatform) (r : Renderer) : Outcome := do
  let r ← refreshOpenClDeviceListSlot platforms r
  match makeClContextIndex r.m_openClDeviceList with
  | none => .error (.thrown .noDeviceAvailable, r)
  | some index =>
    match (if index < 0 then none else r.m_openClDeviceList[index.toNat]?) with
    | none => .error (.deviceListIndexOutOfBounds index r.m_openClDeviceList.length, r)
    | some entry =>
      .ok { r with
        m_openClDevice := some entry.device
        m_openClContext := some
          { serial := r.nextSerial, platform := entry.platform, device := entry.device,
            glInterop := true }
        m_openClCq := some { context := r.nextSerial, device := entry.device }
        nextSerial := r.nextSerial + 1
        m_currOpenClDeviceListEntry := index
        emitted := r.emitted ++ [Signal.currentOpenClDeviceListIndexChanged index] }

/-- Embedding of `Renderer::buildClProgs`: create the program from
`histogram.cl` in `*m_openClContext`, build it for `*m_openClDevice`, and
reset `m_histoBlocksKern` and `m_histoReduceKern` to its kernels
`computeBlocks` and `reduceBlocks`.  Reading the source file and building it
are taken to succeed; the program object itself is not modelled. -/
def buildClProgs (r : Renderer) : Outcome :=
  match r.m_openClContext with
  | none => .error (.nullDereference .m_openClContext, r)
  | some context =>
    match r.m_openClDevice with
    | none => .error (.nullDereference .m_openClDevice, r)
    | some _ =>
      .ok { r with
        m_histoBlocksKern := some { name := "computeBlocks", context := context.serial }
        m_histoReduceKern := some { name := "reduceBlocks", context := context.serial } }

/-- The list `refreshOpenClDeviceListSlot` builds from an enumeration: for
each platform in order, one entry per device in order. -/
def enumerateOpenClDevices (platforms : List ClPlatform) : List OpenClDeviceListEntry :=
  (platforms.map (fun platform => platform.devices.map (deviceListEntry platform))).flatten

/-! ## Image and histogram resources -/

/-- Embedding of `Renderer::delImage`: only when `m_image` is set and created, reset the
compute-side view, clear the cached data, reset the texture and zero the size. -/
def delImage (r : Renderer) : Renderer :=
  match r.m_image with
  | some image =>
    if image.created then
      { r with m_imageCl := none, m_imageData := [], m_image := none, m_imageSize := QSize.mk 0 0 }
    else r
  | none => r

/-- Embedding of `Renderer::delHistogramBlocks`: reset the blocks buffer, the zero block
and the kernel constants buffer. -/
def delHistogramBlocks (r : Renderer) : Renderer :=
  { r with m_histogramBlocks := none, m_histogramZeroBlock := none, m_histoXxKernArgs := none }

/-- Embedding of `Renderer::delHistogram`: only when the histogram texture name
`m_histogram` is not the sentinel, reset the shared CL buffer and put both GL
names back to the sentinel. -/
def delHistogram (r : Renderer) : Renderer :=
  match r.m_histogram with
  | some _ => { r with m_histogramClBuffer := none, m_histogram := none, m_histogramGlBuffer := none }
  | none => r

/-- Arithmetic on `std::size_t` is modulo this value (64-bit targets). -/
def sizeTModulus : Nat := 2 ^ 64

/-- Conversion of an `int` to `cl_uint`. -/
def toClUint (x : Int) : Nat := (x % 4294967296).toNat

/-- The `roundUp` lambda of `execHistoCalc`: `w / threadsPerAxis`, plus one
when there is a remainder; `threadsPerAxis` is 128. -/
def roundUp (w : Nat) : Nat :=
  if w % 128 ≠ 0 then (w / 128 + 1) % 4294967296 else w / 128

/-- The local `histoByteCount` of `execHistoCalc`: `sizeof(cl_uint) * m_histogramBinCount`. -/
def histoByteCount (histogramBinCount : Nat) : Nat :=
  (4 * histogramBinCount) % sizeTModulus

/-- The local `histoPaddedBlockByteCount` of `execHistoCalc`: the byte count rounded up
to a whole number of `cl_uint16` (64 bytes). -/
def histoPaddedBlockByteCount (histogramBinCount : Nat) : Nat :=
  ((if histoByteCount histogramBinCount % 64 ≠ 0
      then (histoByteCount histogramBinCount / 64 + 1) % sizeTModulus
      else histoByteCount histogramBinCount / 64) * 64) % sizeTModulus

/-- The local `histoBlocksByteCount` of `execHistoCalc`: the padded block times the
number of work-groups, `(128 / 16) * (128 / 16)`. -/
def histoBlocksByteCount (histogramBinCount : Nat) : Nat :=
  (histoPaddedBlockByteCount histogramBinCount * ((128 / 16) * (128 / 16))) % sizeTModulus

/-- The call `std::vector::resize(n)` with value-initialised new elements. -/
def vectorResize (v : List Nat) (n : Nat) : List Nat :=
  v.take n ++ List.replicate (n - v.length) 0

/-- The constants `execHistoCalc` stores into the mapped constants buffer:
image size, per-thread region, bin count, and the padded block size in
`cl_uint`s. -/
def xxBlocksConstArgs (r : Renderer) : XxBlocksConstArgs where
  imageSize := (toClUint r.m_imageSize.width, toClUint r.m_imageSize.height)
  invocationRegionSize :=
    (roundUp (toClUint r.m_imageSize.width), roundUp (toClUint r.m_imageSize.height))
  binCount := r.m_histogramBinCount
  paddedBlockSize := (histoPaddedBlockByteCount r.m_histogramBinCount / 4) % 4294967296

/-- The body of `if(m_histogramGlBuffer == max)` in `execHistoCalc`, in source
order: generate the GL buffer; create the shared CL buffer, the blocks buffer,
the zero block and the constants buffer in `*m_openClContext`; map the
constants buffer and the zero block through `m_openClCq`, store the constants
and unmap; bind kernel arguments through `m_histoBlocksKern` and
`m_histoReduceKern`.  Each of these smart pointers is dereferenced where the
source does, and an empty one stops the call in the state reached so far.
The GL calls themselves (`glGenBuffers`, `glBindBuffer`, `glBufferData`) are
taken to succeed. -/
def execHistoCalcCreate (r : Renderer) : Outcome :=
  let r := { r with
    m_histogramGlBuffer := some
      { serial := r.nextSerial, byteCount := histoByteCount r.m_histogramBinCount }
    nextSerial := r.nextSerial + 1 }
  match r.m_openClContext with
  | none => .error (.nullDereference .m_openClContext, r)
  | some context =>
    let kernArgs : KernArgsBuffer :=
      { serial := r.nextSerial + 3, context := context.serial, written := false,
        args := xxBlocksConstArgs r }
    let r := { r with
      m_histogramClBuffer := some
        { serial := r.nextSerial, context := context.serial, glBuffer := r.nextSerial - 1 }
      m_histogramBlocks := some
        { serial := r.nextSerial + 1, context := context.serial,
          byteCount := histoBlocksByteCount r.m_histogramBinCount }
      m_histogramZeroBlock := some
        { serial := r.nextSerial + 2, context := context.serial,
          byteCount := histoByteCount r.m_histogramBinCount }
      m_histoXxKernArgs := some kernArgs
      nextSerial := r.nextSerial + 4 }
    match r.m_openClCq with
    | none => .error (.nullDereference .m_openClCq, r)
    | some _ =>
      let r := { r with m_histoXxKernArgs := some { kernArgs with written := true } }
      match r.m_histoBlocksKern with
      | none => .error (.nullDereference .m_histoBlocksKern, r)
      | some _ =>
        match r.m_histoReduceKern with
        | none => .error (.nullDereference .m_histoReduceKern, r)
        | some _ => .ok r

/-- The statements of `execHistoCalc` after the creation block, in source
order: map `*m_histogramBlocks` through `m_openClCq`, acquire `*m_imageCl` and
`*m_histogramClBuffer`, bind the remaining kernel arguments through
`m_histoBlocksKern`, dispatch the kernel, bind an argument through
`m_histoReduceKern`, resize the cached snapshot to the bin count and read the
result back.  Each pointer is dereferenced where the source does, and an
empty one stops the call.  In
`m_openClCq->enqueueMapBuffer(*m_histogramBlocks, ...)` the two dereferences
are operands of one call expression, which the language leaves unsequenced;
the model reports the buffer first.  The values the device writes into the
snapshot are not modelled. -/
def execHistoCalcPass (r : Renderer) : Outcome :=
  match r.m_histogramBlocks with
  | none => .error (.nullDereference .m_histogramBlocks, r)
  | some _ =>
    match r.m_openClCq with
    | none => .error (.nullDereference .m_openClCq, r)
    | some _ =>
      match r.m_imageCl with
      | none => .error (.nullDereference .m_imageCl, r)
      | some _ =>
        match r.m_histogramClBuffer with
        | none => .error (.nullDereference .m_histogramClBuffer, r)
        | some _ =>
          match r.m_histoBlocksKern with
          | none => .error (.nullDereference .m_histoBlocksKern, r)
          | some _ =>
            match r.m_histoReduceKern with
            | none => .error (.nullDereference .m_histoReduceKern, r)
            | some _ =>
              .ok { r with
                m_histogramData := vectorResize r.m_histogramData r.m_histogramBinCount
                histoCalcPasses := r.histoCalcPasses + 1 }

/-- Embedding of `Renderer::execHistoCalc`: the creation block runs only while
`m_histogramGlBuffer` is the sentinel; the rest of the pass follows. -/
def execHistoCalc (r : Renderer) : Outcome := do
  let r ← if r.m_histogramGlBuffer = none then execHistoCalcCreate r else .ok r
  execHistoCalcPass r

/-- Embedding of `Renderer::execImageDraw`, as far as the properties below need it: one image-view
draw call is recorded, in `drawLog` with the image view's pending flag as it
is when the call is made, and in the count of completed calls.  The GL calls
and the transform are not modelled here. -/
def execImageDraw (r : Renderer) : Renderer :=
  { r with
    drawLog := r.drawLog ++ [{ view := .imageView, updatePending := r.m_imageViewUpdatePending }]
    imageDrawCalls := r.imageDrawCalls + 1 }

/-- Embedding of `Renderer::execHistoDraw`: one histogram-view draw call (clear and swap)
is recorded, in `drawLog` with the histogram view's pending flag as it is when
the call is made, and in the count of completed calls. -/
def execHistoDraw (r : Renderer) : Renderer :=
  { r with
    drawLog := r.drawLog ++
      [{ view := .histogramView, updatePending := r.m_histogramViewUpdatePending }]
    histoDrawCalls := r.histoDrawCalls + 1 }

/-- The `if(!imageData.empty())` body of `newImageSlot` up to the call of
`execHistoCalc`: cache data and size, create the texture unless one exists
and is created, upload the data, and create the compute-side view of the
texture in `*m_openClContext`. -/
def newImageSlotUpload (imageData : ImageData) (imageSize : QSize) (filter : Bool)
    (r : Renderer) : Outcome :=
  let r := { r with m_imageData := imageData, m_imageSize := imageSize }
  let r :=
    match r.m_image with
    | some image =>
      if image.created then r
      else
        { r with
          m_image := some
            { serial := r.nextSerial, created := true, width := imageSize.width,
              height := imageSize.height, linearFilter := false, data := [] }
          nextSerial := r.nextSerial + 1 }
    | none =>
      { r with
        m_image := some
          { serial := r.nextSerial, created := true, width := imageSize.width,
            height := imageSize.height, linearFilter := false, data := [] }
        nextSerial := r.nextSerial + 1 }
  match r.m_image with
  | none => .error (.nullDereference .m_image, r)
  | some image =>
    let r := { r with m_image := some { image with linearFilter := filter, data := r.m_imageData } }
    match r.m_openClContext with
    | none => .error (.nullDereference .m_openClContext, r)
    | some context =>
      .ok { r with
        m_imageCl := some
          { serial := r.nextSerial, context := context.serial, texture := image.serial }
        nextSerial := r.nextSerial + 1 }

/-- Embedding of `Renderer::newImageSlot`: when an image is present and the request is
empty or of another size, `delImage` and `delHistogramBlocks`; for a
non-empty request upload it and run `execHistoCalc`; finally draw both views. -/
def newImageSlot (imageData : ImageData) (imageSize : QSize) (filter : Bool)
    (r : Renderer) : Outcome := do
  let r :=
    if !r.m_imageData.isEmpty && (imageData.isEmpty || r.m_imageSize != imageSize)
    then delHistogramBlocks (delImage r) else r
  let r ←
    if !imageData.isEmpty then do
      let r ← newImageSlotUpload imageData imageSize filter r
      execHistoCalc r
    else .ok r
  .ok (execHistoDraw (execImageDraw r))

/-- Embedding of `Renderer::setHistogramBinCountSlot`: for a bin count different from the
current one, `delHistogramBlocks`, `delHistogram`, store the count and, when
an image is present, run `execHistoCalc` and `execHistoDraw`. -/
def setHistogramBinCountSlot (histogramBinCount : Nat) (r : Renderer) : Outcome :=
  if histogramBinCount ≠ r.m_histogramBinCount then do
    let r := delHistogram (delHistogramBlocks r)
    let r := { r with m_histogramBinCount := histogramBinCount }
    if !r.m_imageData.isEmpty then do
      let r ← execHistoCalc r
      .ok (execHistoDraw r)
    else .ok r
  else .ok r

/-! ## The host actions of a histogram compute pass (`Renderer::execHistoCalc`) -/

/-- The four `cl::Event` variables local to `execHistoCalc`. -/
inductive EventVar where
  | e0
  | e1
  | e2
  | e3
deriving DecidableEq

/-- The OpenCL commands `execHistoCalc` enqueues, in source order: the two
maps and the two unmaps of the creation block (constants buffer, zero block),
the map of the blocks buffer, the acquire of the shared GL objects, the unmap
of the blocks buffer, the `computeBlocks` kernel, the copy of block zero to the
GL-shared buffer, the read of block zero into `m_histogramData`, and the
release of the shared GL objects. -/
inductive ClCommand where
  | mapKernArgs
  | mapZeroBlock
  | unmapKernArgs
  | unmapZeroBlock
  | mapBlocks
  | acquireGLObjects
  | unmapBlocks
  | computeBlocks
  | copyToGlBuffer
  | readToHistogramData
  | releaseGLObjects
deriving DecidableEq

/-- The mapped buffers the host writes between a map and an unmap. -/
inductive MappedBuffer where
  | kernArgs
  | zeroBlock
  | blocks
deriving DecidableEq

/-- One element of a wait vector: the event copied into it and the variable
it was copied from; event `none` is a `cl::Event` that was never assigned. -/
structure WaitEntry where
  source : EventVar
  event : Option Nat
deriving DecidableEq

/-- What the host does during a pass: enqueue a command with a wait list
(empty for `nullptr`) and an output variable that receives a new event; block
in `e.wait()`; `glFinish` with a view's context current; write a mapped buffer. -/
inductive HostAction where
  | enqueue (command : ClCommand) (waits : List WaitEntry) (out : EventVar) (event : Nat)
  | wait (eventVar : EventVar) (event : Option Nat)
  | glFinish (view : View)
  | hostWrite (buffer : MappedBuffer)
deriving DecidableEq

/-- The local variables of `execHistoCalc` that carry events, the number of
events generated so far, and the actions performed so far. -/
structure HistoCalcLocals where
  e0 : Option Nat
  e1 : Option Nat
  e2 : Option Nat
  e3 : Option Nat
  waits : List WaitEntry
  nextEvent : Nat
  actions : List HostAction
deriving DecidableEq

/-- The locals at the start of a pass: `cl::Event e0, e1, e2, e3;` and an
empty `waits` vector. -/
def HistoCalcLocals.start : HistoCalcLocals where
  e0 := none
  e1 := none
  e2 := none
  e3 := none
  waits := []
  nextEvent := 0
  actions := []

/-- The event a variable currently refers to. -/
def HistoCalcLocals.get (l : HistoCalcLocals) : EventVar → Option Nat
  | .e0 => l.e0
  | .e1 => l.e1
  | .e2 => l.e2
  | .e3 => l.e3

/-- Assignment of an event to a variable. -/
def HistoCalcLocals.set (l : HistoCalcLocals) (eventVar : EventVar) (event : Option Nat) :
    HistoCalcLocals :=
  match eventVar with
  | .e0 => { l with e0 := event }
  | .e1 => { l with e1 := event }
  | .e2 => { l with e2 := event }
  | .e3 => { l with e3 := event }

/-- An `m_openClCq->enqueue...(..., waitList, &out)` call: the command is
recorded with the wait list it is given (the current `waits` vector, or none
for `nullptr`), a new event is generated and `out` refers to it afterwards. -/
def HistoCalcLocals.enqueue (command : ClCommand) (useWaits : Bool) (out : EventVar)
    (l : HistoCalcLocals) : HistoCalcLocals :=
  { (l.set out (some l.nextEvent)) with
    nextEvent := l.nextEvent + 1
    actions := l.actions ++
      [HostAction.enqueue command (if useWaits then l.waits else []) out l.nextEvent] }

/-- A call `e.wait()` on one of the event variables. -/
def HistoCalcLocals.wait (eventVar : EventVar) (l : HistoCalcLocals) : HistoCalcLocals :=
  { l with actions := l.actions ++ [HostAction.wait eventVar (l.get eventVar)] }

/-- A call `waits->push_back(e)`: the vector gets a copy of the event
the variable refers to at this moment. -/
def HistoCalcLocals.pushBack (eventVar : EventVar) (l : HistoCalcLocals) : HistoCalcLocals :=
  { l with waits := l.waits ++ [{ source := eventVar, event := l.get eventVar }] }

/-- A statement `waits.reset(new std::vector<cl::Event>{...})`: a new vector of
copies of the events the listed variables refer to at this moment. -/
def HistoCalcLocals.resetWaits (eventVars : List EventVar) (l : HistoCalcLocals) :
    HistoCalcLocals :=
  { l with waits := eventVars.map (fun v => { source := v, event := l.get v }) }

/-- Any other host action (a `glFinish`, a write to a mapped buffer). -/
def HistoCalcLocals.act (action : HostAction) (l : HistoCalcLocals) : HistoCalcLocals :=
  { l with actions := l.actions ++ [action] }

/-- The event-carrying statements of the creation block of `execHistoCalc`,
in source order. -/
def execHistoCalcCreateActions (l : HistoCalcLocals) : HistoCalcLocals :=
  l |>.enqueue .mapKernArgs false .e0
    |>.enqueue .mapZeroBlock false .e1
    |>.wait .e0
    |>.act (.hostWrite .kernArgs)
    |>.enqueue .unmapKernArgs false .e0
    |>.wait .e1
    |>.act (.hostWrite .zeroBlock)
    |>.enqueue .unmapZeroBlock false .e1
    |>.pushBack .e0
    |>.pushBack .e1

/-- The host actions of one completed pass of `execHistoCalc`, in source
order; `create` tells whether the creation block runs, that is whether
`m_histogramGlBuffer` is the sentinel on entry. -/
def execHistoCalcActions (create : Bool) : List HostAction :=
  ((if create then execHistoCalcCreateActions HistoCalcLocals.start
      else HistoCalcLocals.start)
    |>.enqueue .mapBlocks false .e2
    |>.act (.glFinish .imageView)
    |>.act (.glFinish .histogramView)
    |>.enqueue .acquireGLObjects false .e3
    |>.pushBack .e3
    |>.wait .e2
    |>.act (.hostWrite .blocks)
    |>.enqueue .unmapBlocks false .e2
    |>.pushBack .e2
    |>.enqueue .computeBlocks true .e0
    |>.resetWaits [.e0]
    |>.resetWaits [.e0]
    |>.enqueue .copyToGlBuffer true .e1
    |>.enqueue .readToHistogramData true .e2
    |>.resetWaits [.e1, .e2]
    |>.enqueue .releaseGLObjects true .e0
    |>.wait .e0).actions

/-- The commands, in order, whose wait list holds the given event. -/
def dependants (event : Nat) : List HostAction → List ClCommand
  | [] => []
  | .enqueue command waits _ _ :: rest =>
    if (waits.map (fun w => w.event)).contains (some event)
    then command :: dependants event rest else dependants event rest
  | _ :: rest => dependants event rest

/-- The events generated by the enqueued commands, in order. -/
def enqueuedEvents : List HostAction → List Nat
  | [] => []
  | .enqueue _ _ _ event :: rest => event :: enqueuedEvents rest
  | _ :: rest => enqueuedEvents rest

/-- The completion event of the first enqueue of a command. -/
def completionEvent (command : ClCommand) : List HostAction → Option Nat
  | [] => none
  | .enqueue c _ _ event :: rest =>
    if c = command then some event else completionEvent command rest
  | _ :: rest => completionEvent command rest

/-- The events in the wait list of the first enqueue of a command. -/
def waitEvents (command : ClCommand) : List HostAction → List (Option Nat)
  | [] => []
  | .enqueue c waits _ _ :: rest =>
    if c = command then waits.map (fun w => w.event) else waitEvents command rest
  | _ :: rest => waitEvents command rest

/-- The position of the first enqueue of a command among the actions (the
number of actions when there is none). -/
def enqueuePosition (command : ClCommand) : List HostAction → Nat
  | [] => 0
  | .enqueue c _ _ _ :: rest =>
    if c = command then 0 else enqueuePosition command rest + 1
  | _ :: rest => enqueuePosition command rest + 1

/-- Every wait-list entry of every enqueue holds an assigned event, and that
event is the one its source variable refers to when the command is enqueued,
given the events the variables refer to before the first action. -/
def waitListsCurrent (current : EventVar → Option Nat) : List HostAction → Bool
  | [] => true
  | .enqueue _ waits out event :: rest =>
    waits.all (fun w => w.event.isSome && w.event == current w.source) &&
      waitListsCurrent (fun v => if v = out then some event else current v) rest
  | _ :: rest => waitListsCurrent current rest

/-- The first enqueue of `later` comes after the first enqueue of `earlier`
and has the completion event of `earlier` in its wait list. -/
def waitsOn (later earlier : ClCommand) (actions : List HostAction) : Bool :=
  match completionEvent earlier actions with
  | some event =>
    (waitEvents later actions).contains (some event) &&
      decide (enqueuePosition earlier actions < enqueuePosition later actions) &&
      decide (enqueuePosition later actions < actions.length)
  | none => false

/-! ## Image requests (`Renderer::showImage`) -/

/-- Embedding of `Renderer::showImage`: for non-empty data, throw when a
dimension is not positive, else replace the extrema future by a scan of the
data; for empty data replace it by the null future; then emit `_newImage`,
which the queued connection appends to the queue of undelivered calls. -/
def showImage (imageData : ImageData) (imageSize : QSize) (filter : Bool)
    (r : Renderer) : Outcome := do
  let r ←
    if !imageData.isEmpty then
      if imageSize.width ≤ 0 ∨ imageSize.height ≤ 0 then
        .error (.thrown .invalidImageSize, r)
      else
        .ok { r with m_imageExtremaFuture := some { imageData := imageData } }
    else
      .ok { r with m_imageExtremaFuture := none }
  .ok { r with
    newImageQueue := r.newImageQueue ++
      [{ imageData := imageData, imageSize := imageSize, filter := filter }] }

/-- A request that `showImage` does not reject: empty data, or both
dimensions positive. -/
def NewImageRequest.accepted (request : NewImageRequest) : Prop :=
  request.imageData = [] ∨ (0 < request.imageSize.width ∧ 0 < request.imageSize.height)

/-- The render thread delivering queued `_newImage` calls to `newImageSlot`
in order; delivery stops at the first call that does not complete. -/
def processNewImages : List NewImageRequest → Renderer → Outcome
  | [], r => .ok r
  | request :: rest, r => do
    let r ← newImageSlot request.imageData request.imageSize request.filter r
    processNewImages rest r

/-- The cached image buffer is consistent: cached data is non-empty exactly
when both cached dimensions are positive, an empty cache has size `(0, 0)`,
and cached data comes with a created texture. -/
def Renderer.imageBufferConsistent (r : Renderer) : Prop :=
  (r.m_imageData ≠ [] ↔ (0 < r.m_imageSize.width ∧ 0 < r.m_imageSize.height)) ∧
    (r.m_imageData = [] → r.m_imageSize = QSize.mk 0 0) ∧
    (r.m_imageData ≠ [] → ∃ image, r.m_image = some image ∧ image.created = true)

/-- The value a non-null extrema future delivers: the scan of the pixel data
it was started on. -/
def ExtremaFuture.get (future : ExtremaFuture) : Nat × Nat :=
  findImageExtrema future.imageData

/-! ## Viewport synchronisation (`Renderer::updateGlViewportSize`) -/

/-- What `updateGlViewportSize` reads and writes of a `ViewWidget`: the view
size, the size last applied to GL, and the `glViewport(x, y, width, height)`
calls issued for the widget so far. -/
structure ViewWidget where
  m_viewSize : QSize
  m_viewGlSize : QSize
  glViewportCalls : List (Int × Int × Int × Int)
deriving DecidableEq

/-- Embedding of `Renderer::updateGlViewportSize`: when the view size differs
from the size last applied and both of its dimensions are positive, call
`glViewport(0, 0, width, height)` and record the view size as applied. -/
def updateGlViewportSize (viewWidget : ViewWidget) : ViewWidget :=
  if viewWidget.m_viewSize ≠ viewWidget.m_viewGlSize ∧ viewWidget.m_viewSize.width > 0 ∧
      viewWidget.m_viewSize.height > 0 then
    { viewWidget with
      glViewportCalls := viewWidget.glViewportCalls ++
        [(0, 0, viewWidget.m_viewSize.width, viewWidget.m_viewSize.height)]
      m_viewGlSize := viewWidget.m_viewSize }
  else viewWidget

/-! ## Transform engine (the matrices of `Renderer::execImageDraw`)

The `double` and `float` values of this code are modelled by rational
numbers: every operation is exact and rounding is not modelled.  Matrices are
written mathematically (row, column); `glm` stores them by columns. -/

/-- A `glm::dmat4`. -/
abbrev DMat4 := Matrix (Fin 4) (Fin 4) ℚ

/-- A `glm::dmat3`. -/
abbrev DMat3 := Matrix (Fin 3) (Fin 3) ℚ

/-- The call `glm::scale(m, glm::dvec3(x, y, z))`: the first three columns of
`m` are multiplied by `x`, `y`, `z`, that is `m` times the scale matrix. -/
def glmScale (m : DMat4) (x y z : ℚ) : DMat4 :=
  m * Matrix.diagonal ![x, y, z, 1]

/-- The call `glm::translate(m, glm::dvec3(x, y, z))`: the last column becomes
`m[0] * x + m[1] * y + m[2] * z + m[3]`, that is `m` times the translation
matrix. -/
def glmTranslate (m : DMat4) (x y z : ℚ) : DMat4 :=
  m * !![1, 0, 0, x; 0, 1, 0, y; 0, 0, 1, z; 0, 0, 0, 1]

/-- The constructor `glm::dmat3(x0, y0, z0, x1, y1, z1, x2, y2, z2)`, which
takes the entries column by column. -/
def dmat3 (x0 y0 z0 x1 y1 z1 x2 y2 z2 : ℚ) : DMat3 :=
  !![x0, x1, x2; y0, y1, y2; z0, z1, z2]

/-- The value `newImageSlot` stores in `m_imageAspectRatio` for an image size:
width over height. -/
def imageAspectRatio (imageSize : QSize) : ℚ :=
  (imageSize.width : ℚ) / (imageSize.height : ℚ)

/-- The local `correctionFactor` of `execImageDraw`: the image aspect ratio
over the view aspect ratio `viewSize.x / viewSize.y`. -/
def correctionFactor (imageSize viewSize : QSize) : ℚ :=
  imageAspectRatio imageSize / ((viewSize.width : ℚ) / (viewSize.height : ℚ))

/-- The local `zoomFactor` of the zoom-to-fit branch: `viewSize.y` over the
image height when the correction factor is at most 1, else `viewSize.x` over
the image width. -/
def fitZoomFactor (imageSize viewSize : QSize) : ℚ :=
  if correctionFactor imageSize viewSize ≤ 1
  then (viewSize.height : ℚ) / (imageSize.height : ℚ)
  else (viewSize.width : ℚ) / (imageSize.width : ℚ)

/-- The matrix `pmv` of the zoom-to-fit branch: the identity scaled by the
correction factor along x when that factor is at most 1, else by its inverse
along y. -/
def fitPmv (imageSize viewSize : QSize) : DMat4 :=
  if correctionFactor imageSize viewSize ≤ 1
  then glmScale 1 (correctionFactor imageSize viewSize) 1 1
  else glmScale 1 1 (1 / correctionFactor imageSize viewSize) 1

/-- The matrix `fragToTex` at the end of the zoom-to-fit branch: the centering
offset on one axis, then the product with `dmat3(1,0,0, 0,1,0, 0,0,zoomFactor)`
from the left. -/
def fitFragToTex (imageSize viewSize : QSize) : DMat3 :=
  dmat3 1 0 0 0 1 0 0 0 (fitZoomFactor imageSize viewSize) *
    (if correctionFactor imageSize viewSize ≤ 1
     then dmat3 1 0 0 0 1 0
       (-((viewSize.width : ℚ) - fitZoomFactor imageSize viewSize * (imageSize.width : ℚ)) / 2)
       0 1
     else dmat3 1 0 0 0 1 0 0
       (-((viewSize.height : ℚ) - fitZoomFactor imageSize viewSize * (imageSize.height : ℚ))
         / 2)
       1)

/-- The statement after both branches of `execImageDraw`: the product with
`dmat3(1 / width, 0, 0, 0, 1 / height, 0, 0, 0, 1)` from the left. -/
def normaliseFragToTex (imageSize : QSize) (fragToTex : DMat3) : DMat3 :=
  dmat3 (1 / (imageSize.width : ℚ)) 0 0 0 (1 / (imageSize.height : ℚ)) 0 0 0 1 * fragToTex

/-- The matrix `pmv` of the manual branch: scale by the correction factor
along x, translate by `(-(pans.x * (1 / correctionFactor)), pans.y, 0)` with
`pans = pan / viewSize * 2`, then scale x and y by `sizeRatio`, the image
height over `viewSize.y` times the zoom factor. -/
def manualPmv (imageSize viewSize : QSize) (zoomFactor : ℚ) (pan : ℚ × ℚ) : DMat4 :=
  glmScale
    (glmTranslate
      (glmScale 1 (correctionFactor imageSize viewSize) 1 1)
      (-(pan.1 / (viewSize.width : ℚ) * 2 * (1 / correctionFactor imageSize viewSize)))
      (pan.2 / (viewSize.height : ℚ) * 2)
      0)
    ((imageSize.height : ℚ) / (viewSize.height : ℚ) * zoomFactor)
    ((imageSize.height : ℚ) / (viewSize.height : ℚ) * zoomFactor)
    1

/-- Embedding of `Renderer::makeGlContexts`: both views get an OpenGL context (creation is
taken to succeed). -/
def makeGlContexts (r : Renderer) : Renderer :=
  { r with imageViewContext := true, histogramViewContext := true }

/-- Embedding of `Renderer::threadInitSlot`: throws on a second call; otherwise marks the
thread initialised, makes the GL contexts, the CL context with its command
queue, and the CL kernels.  The GL function bundle and the GLSL programs are
not modelled. -/
def threadInitSlot (platforms : List ClPlatform) (r : Renderer) : Outcome :=
  if r.m_threadInited then .error (.thrown .threadInitCalledTwice, r)
  else do
    let r ← makeClContext platforms (makeGlContexts { r with m_threadInited := true })
    buildClProgs r

/-! ## Coalesced view updates -/

/-- Embedding of `Renderer::updateView`: throws for a view that is neither of the two;
otherwise `exchange(true)` on the view's pending flag and, when the flag was
clear and the view has a context, emit `_updateView(view)`, which the queued
connection appends to the queue of undelivered calls. -/
def updateView (view : View) (r : Renderer) : Outcome :=
  match view with
  | .imageView =>
    let updateWasAlreadyPending := r.m_imageViewUpdatePending
    let r := { r with m_imageViewUpdatePending := true }
    if !updateWasAlreadyPending && r.imageViewContext
    then .ok { r with updateViewQueue := r.updateViewQueue ++ [view] } else .ok r
  | .histogramView =>
    let updateWasAlreadyPending := r.m_histogramViewUpdatePending
    let r := { r with m_histogramViewUpdatePending := true }
    if !updateWasAlreadyPending && r.histogramViewContext
    then .ok { r with updateViewQueue := r.updateViewQueue ++ [view] } else .ok r
  | .otherView => .error (.thrown .unknownView, r)

/-- Embedding of `Renderer::updateViewSlot`: for the image or histogram view, when its
pending flag is set, clear the flag and then draw; nothing otherwise. -/
def updateViewSlot (view : View) (r : Renderer) : Renderer :=
  match view with
  | .imageView =>
    if r.m_imageViewUpdatePending
    then execImageDraw { r with m_imageViewUpdatePending := false } else r
  | .histogramView =>
    if r.m_histogramViewUpdatePending
    then execHistoDraw { r with m_histogramViewUpdatePending := false } else r
  | .otherView => r

/-- A run of `n` successive calls of `updateView` for one view; stops at the first
call that does not complete. -/
def updateViewTimes (view : View) : Nat → Renderer → Outcome
  | 0, r => .ok r
  | n + 1, r => do
    let r ← updateView view r
    updateViewTimes view n r

/-- The render thread draining its queue: the undelivered `_updateView`
calls are delivered to `updateViewSlot` in the order they were queued. -/
def drainUpdateViewQueue (r : Renderer) : Renderer :=
  r.updateViewQueue.foldl (fun s view => updateViewSlot view s) { r with updateViewQueue := [] }

/-- An image is live: data is cached, the texture exists and is created, a
compute context exists and the histogram GL buffer has been generated.  This
is what a completed `newImageSlot` with non-empty data leaves. -/
def Renderer.hasLiveImage (r : Renderer) : Prop :=
  r.m_imageData ≠ [] ∧ (∃ image, r.m_image = some image ∧ image.created = true) ∧
    r.m_openClContext ≠ none ∧ r.m_histogramGlBuffer ≠ none

/-- The pending flag `updateView` and `updateViewSlot` select for a view. -/
def Renderer.updatePending (r : Renderer) : View → Bool
  | .imageView => r.m_imageViewUpdatePending
  | .histogramView => r.m_histogramViewUpdatePending
  | .otherView => false

/-- The pointer `view->m_context` being non-null, for the renderer's two views. -/
def Renderer.viewContext (r : Renderer) : View → Bool
  | .imageView => r.imageViewContext
  | .histogramView => r.histogramViewContext
  | .otherView => false

/-- The number of draw calls executed so far for a view. -/
def Renderer.drawCalls (r : Renderer) : View → Nat
  | .imageView => r.imageDrawCalls
  | .histogramView => r.histoDrawCalls
  | .otherView => 0

/-- The state while a draw call for a view runs, entered from state `r`: the
call has been issued, which `drawLog` records with the view's pending flag as
it is in `r`, and has not returned yet. -/
def beginViewDraw (view : View) (r : Renderer) : Renderer :=
  { r with drawLog := r.drawLog ++ [{ view := view, updatePending := r.updatePending view }] }

/-- The return of a draw call for a view: the call is counted as completed.
Begun and ended in one step this is `execImageDraw` for the image view and
`execHistoDraw` for the histogram view; the draw calls read and write neither
the pending flags nor the queue of undelivered `_updateView` calls. -/
def endViewDraw (view : View) (r : Renderer) : Renderer :=
  match view with
  | .imageView => { r with imageDrawCalls := r.imageDrawCalls + 1 }
  | .histogramView => { r with histoDrawCalls := r.histoDrawCalls + 1 }
  | .otherView => r

/-! ## Request sequences on the render thread -/

/-- A request the render thread processes: the delivery of a `_newImage`
emission to `newImageSlot`, or a call of `setHistogramBinCountSlot`. -/
inductive RendererRequest where
  | newImage (imageData : ImageData) (imageSize : QSize) (filter : Bool)
  | setHistogramBinCount (histogramBinCount : Nat)
deriving DecidableEq

/-- The slot a request is processed by. -/
def RendererRequest.run (request : RendererRequest) (r : Renderer) : Outcome :=
  match request with
  | .newImage imageData imageSize filter => newImageSlot imageData imageSize filter r
  | .setHistogramBinCount histogramBinCount => setHistogramBinCountSlot histogramBinCount r

/-- The render thread processing requests in order; processing stops at the
first request that does not complete. -/
def processRequests : List RendererRequest → Renderer → Outcome
  | [], r => .ok r
  | request :: rest, r => do
    let r ← request.run r
    processRequests rest r

/-- The snapshot-length invariant: when an image is present, the cached
histogram snapshot has as many entries as the bin count. -/
def Renderer.snapshotLengthInvariant (r : Renderer) : Prop :=
  r.m_imageData ≠ [] → r.m_histogramData.length = r.m_histogramBinCount

/-! ## Flipper (`Flipper.cpp`) -/

/-- The `Frame::Type` of a flipper frame. -/
inductive FrameType where
  | PyData
  | Data
  | File
deriving DecidableEq

/-- A `Flipper::Frame` as far as the index logic reads it: its type, the
number in its name `"Frame %1"` (`none` for a frame whose name was not set),
its size and whether its `data` vector is empty. -/
structure Frame where
  type : FrameType
  nameNumber : Option Nat
  size : QSize
  dataEmpty : Bool
deriving DecidableEq

/-- The `images` argument of `Flipper::append` as the function classifies it:
`Py_None`; something `PyArray_FromAny` converts to a 2d uint16 array of the
given shape; something that does not convert but is iterable, with for each
element whether it converts; or something that is neither. -/
inductive PyImages where
  | pyNone
  | array (height : Int) (width : Int)
  | iterable (elementConverts : List Bool)
  | unsupported
deriving DecidableEq

/-- Signals a flipper emits. -/
inductive FlipperSignal where
  | frameCountChanged (count : Int)
  | frameIndexChanged (index : Int)
deriving DecidableEq

/-- The state of a `Flipper` as far as the index logic goes: the frames, the
frame index, the signals emitted and the frames handed to `m_rw->showImage`. -/
structure Flipper where
  m_frames : List Frame
  m_frameIndex : Int
  emitted : List FlipperSignal
  shown : List Frame
deriving DecidableEq

/-- How a flipper call can fail: the exceptions thrown in `Flipper.cpp`, an
exception out of `m_rw->showImage`, or `m_frames[m_frameIndex]` past the end
(undefined behaviour). -/
inductive FlipperFault where
  | notIterable
  | elementNotConvertible (listIdx : Nat)
  | frameIndexOutOfRange (frameIndex : Int) (last : Int)
  | onDemandLoadUnsupported
  | showImageThrew
  | framesIndexOutOfBounds
deriving DecidableEq

/-- The result of a flipper call: the state it leaves, or the fault that
stopped it together with the state at that point. -/
abbrev FlipperOutcome := Except (FlipperFault × Flipper) Flipper

/-- The flipper state a call leaves behind, whether it completed or not. -/
def FlipperOutcome.state (o : FlipperOutcome) : Flipper :=
  match o with
  | .ok f => f
  | .error (_, f) => f

/-- The state `Flipper::Flipper` leaves: no frames, frame index 0. -/
def Flipper.constructed : Flipper where
  m_frames := []
  m_frameIndex := 0
  emitted := []
  shown := []

/-- Embedding of `Flipper::getFrameCount`. -/
def Flipper.getFrameCount (f : Flipper) : Int := f.m_frames.length

/-- Embedding of `Flipper::propagateFrameCountChange`: emits
`frameCountChanged`; the widget ranges it sets are not modelled. -/
def Flipper.propagateFrameCountChange (f : Flipper) : Flipper :=
  { f with emitted := f.emitted ++ [FlipperSignal.frameCountChanged f.m_frames.length] }

/-- Embedding of `Flipper::propagateFrameIndexChange`: read
`m_frames[m_frameIndex]`, show the frame (throwing for a frame without data
that is not a numpy frame), then emit `frameIndexChanged`.  `RisWidget` is not
among the sources: `showThrows` tells whether `m_rw->showImage` throws. -/
def Flipper.propagateFrameIndexChange (showThrows : Bool) (f : Flipper) : FlipperOutcome :=
  match (if f.m_frameIndex < 0 then none else f.m_frames[f.m_frameIndex.toNat]?) with
  | none => .error (.framesIndexOutOfBounds, f)
  | some frame =>
    if frame.dataEmpty && frame.type != FrameType.PyData then
      .error (.onDemandLoadUnsupported, f)
    else if showThrows then
      .error (.showImageThrew, f)
    else
      .ok { f with
        shown := f.shown ++ [frame]
        emitted := f.emitted ++ [FlipperSignal.frameIndexChanged f.m_frameIndex] }

/-- The frames the `while` loop of `Flipper::append` collects in `addFrames`
from an iterable whose elements all convert: one numpy frame per element,
named by its position after the existing frames. -/
def Flipper.appendFrames (existing : Nat) (elementConverts : List Bool) : List Frame :=
  (List.range elementConverts.length).map (fun k =>
    { type := FrameType.PyData, nameNumber := some (existing + k), size := QSize.mk (-1) (-1),
      dataEmpty := true })

/-- Embedding of `Flipper::append`: `Py_None` is ignored; a 2d array becomes
one frame; an iterable becomes one frame per element, unless an element does
not convert, in which case the call throws and adds nothing; anything else
throws.  When frames were added, `propagateFrameCountChange`, and when there
were no frames before, `propagateFrameIndexChange`. -/
def Flipper.append (images : PyImages) (showThrows : Bool) (f : Flipper) : FlipperOutcome := do
  let hadNoFrames := f.m_frames.isEmpty
  let (f, addedFrame) ←
    match images with
    | .pyNone => (.ok (f, false) : Except (FlipperFault × Flipper) (Flipper × Bool))
    | .array height width =>
      .ok ({ f with
        m_frames := f.m_frames ++
          [{ type := FrameType.PyData, nameNumber := none, size := QSize.mk width height,
             dataEmpty := true }] }, true)
    | .iterable elementConverts =>
      if elementConverts.all id then
        if !elementConverts.isEmpty then
          .ok ({ f with
            m_frames := f.m_frames ++ Flipper.appendFrames f.m_frames.length elementConverts },
            true)
        else .ok (f, false)
      else
        .error (.elementNotConvertible (elementConverts.indexOf false), f)
    | .unsupported => .error (.notIterable, f)
  if addedFrame then
    let f := f.propagateFrameCountChange
    if hadNoFrames then f.propagateFrameIndexChange showThrows else .ok f
  else .ok f

/-- Embedding of `Flipper::setFrameIndex`: nothing for the current index;
otherwise throw for an index outside `[0, count)`, else store it and
`propagateFrameIndexChange`. -/
def Flipper.setFrameIndex (frameIndex : Int) (showThrows : Bool) (f : Flipper) :
    FlipperOutcome :=
  if frameIndex ≠ f.m_frameIndex then
    if frameIndex < 0 ∨ frameIndex ≥ f.getFrameCount then
      .error (.frameIndexOutOfRange frameIndex (max (f.getFrameCount - 1) 0), f)
    else
      Flipper.propagateFrameIndexChange showThrows { f with m_frameIndex := frameIndex }
  else .ok f

/-- Embedding of `Flipper::incrementFrameIndex`: with more than one frame,
increment the index, wrap to 0 when it reaches the frame count, and
`propagateFrameIndexChange`.  The source compares the `int` index with
`m_frames.size()` after conversion to `size_t`, which leaves a non-negative
index as it is. -/
def Flipper.incrementFrameIndex (showThrows : Bool) (f : Flipper) : FlipperOutcome :=
  if f.m_frames.length > 1 then
    let f := { f with m_frameIndex := f.m_frameIndex + 1 }
    let f := if f.m_frameIndex ≥ f.m_frames.length then { f with m_frameIndex := 0 } else f
    f.propagateFrameIndexChange showThrows
  else .ok f

/-- One call on a flipper, with whether `m_rw->showImage` throws during it. -/
inductive FlipperCall where
  | append (images : PyImages) (showThrows : Bool)
  | setFrameIndex (frameIndex : Int) (showThrows : Bool)
  | incrementFrameIndex (showThrows : Bool)
deriving DecidableEq

/-- The outcome of one call. -/
def FlipperCall.run (call : FlipperCall) (f : Flipper) : FlipperOutcome :=
  match call with
  | .append images showThrows => f.append images showThrows
  | .setFrameIndex frameIndex showThrows => f.setFrameIndex frameIndex showThrows
  | .incrementFrameIndex showThrows => f.incrementFrameIndex showThrows

/-- A sequence of calls made one after the other; a call that fails leaves
the object in the state it had at the throw and the next call is made on it. -/
def runFlipperCalls (calls : List FlipperCall) (f : Flipper) : Flipper :=
  calls.foldl (fun s call => FlipperOutcome.state (call.run s)) f

/-- The frame index is valid: 0 when there are no frames, and otherwise at
least 0 and below the frame count. -/
def Flipper.frameIndexValid (f : Flipper) : Prop :=
  (f.m_frames = [] → f.m_frameIndex = 0) ∧
    (f.m_frames ≠ [] → 0 ≤ f.m_frameIndex ∧ f.m_frameIndex < f.getFrameCount)

/-! ## A concrete host used to evaluate the operations -/

/-- An enumeration with one platform offering a GPU and an unnamed CPU. -/
def exampleGpuHost : List ClPlatform :=
  [{ handle := 100,
     devices :=
      [{ handle := 101, type := CL_DEVICE_TYPE_GPU, name := "Tahiti", version := "OpenCL 1.2" },
       { handle := 102, type := CL_DEVICE_TYPE_CPU, name := "", version := "" }] }]

/-- An enumeration with one platform offering only a CPU. -/
def exampleCpuHost : List ClPlatform :=
  [{ handle := 200,
     devices :=
      [{ handle := 201, type := CL_DEVICE_TYPE_CPU, name := "Xeon", version := "OpenCL 1.2" }] }]

/-- The renderer after thread initialisation on `exampleGpuHost`. -/
def exampleInitRenderer : Renderer :=
  Outcome.state (threadInitSlot exampleGpuHost Renderer.constructed)

/-- The renderer after thread initialisation and one 2x1 image. -/
def exampleLiveRenderer : Renderer :=
  Outcome.state (newImageSlot [1, 2] (QSize.mk 2 1) false exampleInitRenderer)

/-- The state in which `newImageSlot` enters `execHistoCalc` for a 3x2 image
arriving at `exampleLiveRenderer`: teardown and upload are done. -/
def exampleResizedRenderer : Renderer :=
  Outcome.state (newImageSlotUpload [1, 2, 3, 4, 5, 6] (QSize.mk 3 2) false
    (delHistogramBlocks (delImage exampleLiveRenderer)))

/-- The renderer after thread initialisation and one update request for the
image view: the request is queued and the flag set. -/
def examplePendingRenderer : Renderer :=
  Outcome.state (updateView .imageView exampleInitRenderer)

/-- A request sequence on an initialised renderer without image: a change of
the bin count to 256, a 2x1 image, another 2x1 image, a change of the bin
count to 256 again. -/
def exampleRequests : List RendererRequest :=
  [RendererRequest.setHistogramBinCount 256,
    RendererRequest.newImage [1, 2] (QSize.mk 2 1) false,
    RendererRequest.newImage [3, 4] (QSize.mk 2 1) true,
    RendererRequest.setHistogramBinCount 256]

/-- The renderer after thread initialisation and `exampleRequests`. -/
def exampleRequestsRenderer : Renderer :=
  Outcome.state (processRequests exampleRequests exampleInitRenderer)

/-- The renderer after thread initialisation and `showImage` of a 2x1 image:
the future of that scan is stored and one `_newImage` is queued. -/
def exampleScanningRenderer : Renderer :=
  Outcome.state (showImage [1, 2] (QSize.mk 2 1) false exampleInitRenderer)

/-- A flipper after appending three images, stepping once, and a
`setFrameIndex(2)` during which `m_rw->showImage` throws. -/
def exampleFlipper : Flipper :=
  runFlipperCalls
    [FlipperCall.append (PyImages.iterable [true, true, true]) false,
      FlipperCall.incrementFrameIndex false,
      FlipperCall.setFrameIndex 2 true]
    Flipper.constructed

/-! ## Lemmas on the extrema scan -/

theorem findImageExtrema_foldl_fst_le_init (l : ImageData) (ret : Nat × Nat) :
    (l.foldl findImageExtremaStep ret).1 ≤ ret.1 := by
  induction l generalizing ret with
  | nil => simp
  | cons p ps ih =>
    simp only [List.foldl_cons]
    refine le_trans (ih _) ?_
    unfold findImageExtremaStep
    split_ifs
    · exact Nat.le_of_lt (by assumption)
    · exact le_refl _
    · exact le_refl _

theorem findImageExtrema_foldl_fst_le_mem (l : ImageData) (ret : Nat × Nat) :
    ∀ p ∈ l, (l.foldl findImageExtremaStep ret).1 ≤ p := by
  induction l generalizing ret with
  | nil => simp
  | cons q qs ih =>
    intro p hp
    simp only [List.foldl_cons]
    rcases List.mem_cons.mp hp with h | h
    · subst h
      refine le_trans (findImageExtrema_foldl_fst_le_init qs _) ?_
      unfold findImageExtremaStep
      split_ifs
      · exact le_refl _
      · exact Nat.le_of_not_lt (by assumption)
      · exact Nat.le_of_not_lt (by assumption)
    · exact ih _ p h

theorem findImageExtrema_foldl_fst_mem (l : ImageData) (ret : Nat × Nat) :
    (l.foldl findImageExtremaStep ret).1 = ret.1 ∨
      (l.foldl findImageExtremaStep ret).1 ∈ l := by
  induction l generalizing ret with
  | nil => simp
  | cons q qs ih =>
    simp only [List.foldl_cons]
    rcases ih (findImageExtremaStep ret q) with h | h
    · rw [h]
      unfold findImageExtremaStep
      split_ifs <;> simp
    · right
      exact List.mem_cons_of_mem _ h

/-! ## Claims on the extrema scan -/

/-- C1 (code defect): on the two-pixel image `[5, 3]` the scan returns
`(3, 0)`: the returned max `0` is below the sample `5` and is not a sample.
The first pixel only ever lowers `first`, so a maximum that occurs only at
the first position is never recorded. -/
theorem findImageExtrema_max_missed :
    findImageExtrema [5, 3] = (3, 0) ∧
      2 ≤ ([5, 3] : ImageData).length ∧
      ¬ (∀ p ∈ ([5, 3] : ImageData), p ≤ (findImageExtrema [5, 3]).2) ∧
      (findImageExtrema [5, 3]).2 ∉ ([5, 3] : ImageData) := by
  decide

/-- C2: for every image of 16-bit samples with at least two pixels, the
returned min is less than or equal to every sample and is one of the
samples. -/
theorem findImageExtrema_min_correct (imageData : ImageData)
    (hlen : 2 ≤ imageData.length) (h16 : isGLushortData imageData) :
    (∀ p ∈ imageData, (findImageExtrema imageData).1 ≤ p) ∧
      (findImageExtrema imageData).1 ∈ imageData := by
  have hne : imageData.length ≠ 1 := by omega
  unfold findImageExtrema
  rw [if_neg hne]
  refine ⟨findImageExtrema_foldl_fst_le_mem imageData _, ?_⟩
  rcases findImageExtrema_foldl_fst_mem imageData (65535, 0) with h | h
  · -- the running min never moved: every sample is 65535
    cases imageData with
    | nil => simp at hlen
    | cons q qs =>
      have hq : (List.foldl findImageExtremaStep (65535, 0) (q :: qs)).1 ≤ q :=
        findImageExtrema_foldl_fst_le_mem (q :: qs) _ q (List.mem_cons_self _ _)
      have hq16 : q < 65536 := h16 q (List.mem_cons_self _ _)
      have : q = 65535 := by simp only at h; omega
      rw [h]
      simp [this]
  · exact h

theorem findImageExtrema_min_correct_witness :
    2 ≤ ([7, 2, 9] : ImageData).length ∧ isGLushortData [7, 2, 9] ∧
      (∀ p ∈ ([7, 2, 9] : ImageData), (findImageExtrema [7, 2, 9]).1 ≤ p) ∧
      (findImageExtrema [7, 2, 9]).1 ∈ ([7, 2, 9] : ImageData) :=
  ⟨by decide, by unfold isGLushortData; decide,
    findImageExtrema_min_correct [7, 2, 9] (by decide) (by unfold isGLushortData; decide)⟩

/-- C3: for every sample value `p` (in particular every 16-bit one), the
scan of the single-pixel image `[p]` returns `(p, p)`. -/
theorem findImageExtrema_single_pixel (p : Nat) :
    findImageExtrema [p] = (p, p) := by
  simp [findImageExtrema]

/-! ## Lemmas on the device ranking -/

theorem makeClContextLoop_cases (test : OpenClDeviceListEntry → Bool)
    (l : List OpenClDeviceListEntry) (index i : Int) :
    (makeClContextLoop test l (index, i) = (index, i + l.length) ∧ ∀ e ∈ l, test e = false) ∨
      (∃ k : Nat, k < l.length ∧ makeClContextLoop test l (index, i) = (i + k, i + k)) := by
  induction l generalizing i with
  | nil => left; simp [makeClContextLoop]
  | cons e es ih =>
    by_cases h : test e = true
    · right
      exact ⟨0, by simp, by simp [makeClContextLoop, h]⟩
    · have hf : test e = false := by simpa using h
      rcases ih (i + 1) with ⟨heq, hall⟩ | ⟨k, hk, heq⟩
      · left
        refine ⟨?_, ?_⟩
        · simp only [makeClContextLoop, hf, heq, List.length_cons]
          simp only [Bool.false_eq_true, if_false, Nat.cast_add, Nat.cast_one, Prod.mk.injEq,
            true_and]
          omega
        · intro x hx
          rcases List.mem_cons.mp hx with rfl | hx
          · exact hf
          · exact hall x hx
      · right
        refine ⟨k + 1, by simp [hk], ?_⟩
        simp only [makeClContextLoop, hf, heq]
        simp only [Bool.false_eq_true, if_false, Nat.cast_add, Nat.cast_one, Prod.mk.injEq]
        omega

/-- C4 (code defect): for every non-empty device list without a GPU-class
entry the ranking of `makeClContext` yields an index that is at least the
list length, so not a position of the list: the loop counter `i` is not
reset between the four loops. -/
theorem makeClContextIndex_out_of_range_without_gpu (l : List OpenClDeviceListEntry)
    (hne : l ≠ []) (hgpu : ∀ entry ∈ l, entry.type &&& CL_DEVICE_TYPE_GPU = 0) :
    ∃ index, makeClContextIndex l = some index ∧ (l.length : Int) ≤ index := by
  have hlen : 0 < l.length := List.length_pos.mpr hne
  unfold makeClContextIndex
  rcases makeClContextLoop_cases (fun entry => entry.type &&& CL_DEVICE_TYPE_GPU != 0) l (-1) 0
    with ⟨h1, _⟩ | ⟨k, hk, h1⟩
  · simp only [h1, if_true]
    rcases makeClContextLoop_cases (fun entry => entry.type &&& CL_DEVICE_TYPE_ACCELERATOR != 0)
      l (-1) (0 + l.length) with ⟨h2, _⟩ | ⟨k, hk, h2⟩
    · simp only [h2, if_true]
      rcases makeClContextLoop_cases (fun entry => entry.type &&& CL_DEVICE_TYPE_CPU == 0)
        l (-1) (0 + l.length + l.length) with ⟨h3, hall3⟩ | ⟨k, hk, h3⟩
      · simp only [h3, if_true]
        rcases makeClContextLoop_cases (fun entry => entry.type &&& CL_DEVICE_TYPE_CPU != 0)
          l (-1) (0 + l.length + l.length + l.length) with ⟨h4, hall4⟩ | ⟨k, hk, h4⟩
        · exfalso
          cases l with
          | nil => exact hne rfl
          | cons e es =>
            have a := hall3 e (List.mem_cons_self _ _)
            have b := hall4 e (List.mem_cons_self _ _)
            simp at a b
            exact a b
        · simp only [h4]
          have hk' : (0 : Int) + l.length + l.length + l.length + k ≠ -1 := by omega
          rw [if_neg hk']
          exact ⟨_, rfl, by omega⟩
      · simp only [h3]
        have hk' : (0 : Int) + l.length + l.length + k ≠ -1 := by omega
        rw [if_neg hk']
        exact ⟨_, rfl, by omega⟩
    · simp only [h2]
      have hk' : (0 : Int) + l.length + k ≠ -1 := by omega
      rw [if_neg hk']
      exact ⟨_, rfl, by omega⟩
  · -- a GPU-class entry was found, against the hypothesis
    exfalso
    have : ∀ (l' : List OpenClDeviceListEntry) (i : Int),
        (∀ entry ∈ l', entry.type &&& CL_DEVICE_TYPE_GPU = 0) →
        makeClContextLoop (fun entry => entry.type &&& CL_DEVICE_TYPE_GPU != 0) l' (-1, i)
          = (-1, i + l'.length) := by
      intro l'
      induction l' with
      | nil => intro i _; simp [makeClContextLoop]
      | cons e es ih =>
        intro i h
        have he := h e (List.mem_cons_self _ _)
        have hes : ∀ entry ∈ es, entry.type &&& CL_DEVICE_TYPE_GPU = 0 :=
          fun x hx => h x (List.mem_cons_of_mem _ hx)
        simp only [makeClContextLoop, he, ih (i + 1) hes, List.length_cons]
        simp only [bne_self_eq_false, Bool.false_eq_true, if_false, Nat.cast_add, Nat.cast_one,
          Prod.mk.injEq, true_and]
        omega
    rw [this l 0 hgpu] at h1
    simp only [Prod.mk.injEq] at h1
    omega

theorem makeClContextIndex_out_of_range_without_gpu_witness :
    ([OpenClDeviceListEntry.mk "cpu (CPU) (1.2)" CL_DEVICE_TYPE_CPU 1 1] ≠ []) ∧
      (∀ entry ∈ [OpenClDeviceListEntry.mk "cpu (CPU) (1.2)" CL_DEVICE_TYPE_CPU 1 1],
        entry.type &&& CL_DEVICE_TYPE_GPU = 0) ∧
      (∃ index,
        makeClContextIndex [OpenClDeviceListEntry.mk "cpu (CPU) (1.2)" CL_DEVICE_TYPE_CPU 1 1]
          = some index ∧
        (([OpenClDeviceListEntry.mk "cpu (CPU) (1.2)" CL_DEVICE_TYPE_CPU 1 1].length : Nat) : Int)
          ≤ index) ∧
      makeClContextIndex [OpenClDeviceListEntry.mk "cpu (CPU) (1.2)" CL_DEVICE_TYPE_CPU 1 1]
        = some 3 :=
  ⟨by decide, by decide,
    makeClContextIndex_out_of_range_without_gpu
      [OpenClDeviceListEntry.mk "cpu (CPU) (1.2)" CL_DEVICE_TYPE_CPU 1 1] (by decide) (by decide),
    by decide⟩

/-! ## Claims on `setCurrentOpenClDeviceListIndexSlot` -/

/-- C5 (counterexample): on the freshly constructed renderer, whose device
list is empty and whose current index is `INT_MIN`, the index `INT_MIN` is
outside `[0, count)` and yet the call completes without throwing. -/
theorem setCurrentOpenClDeviceListIndexSlot_same_index_not_rejected :
    (INT_MIN < 0 ∨ (Renderer.constructed.m_openClDeviceList.length : Int) ≤ INT_MIN) ∧
      setCurrentOpenClDeviceListIndexSlot INT_MIN Renderer.constructed
        = .ok Renderer.constructed :=
  ⟨Or.inl (by decide), rfl⟩

/-- C5 (amended): for every renderer state and every index `i`, the call
throws the index-out-of-range exception exactly when `i` differs from the
current index and lies outside `[0, count)`; in every other case (`i` in
range, or `i` equal to the current index) it completes without a fault. -/
theorem setCurrentOpenClDeviceListIndexSlot_fault (i : Int) (r : Renderer) :
    (setCurrentOpenClDeviceListIndexSlot i r).fault =
      if i ≠ r.m_currOpenClDeviceListEntry ∧ (i < 0 ∨ (r.m_openClDeviceList.length : Int) ≤ i)
      then some (Fault.thrown (RisWidgetException.indexOutOfRange r.m_openClDeviceList.length))
      else none := by
  unfold setCurrentOpenClDeviceListIndexSlot
  by_cases h1 : i = r.m_currOpenClDeviceListEntry
  · simp [h1, Outcome.fault]
  · by_cases h2 : i < 0 ∨ (r.m_openClDeviceList.length : Int) ≤ i
    · have h2' : i < 0 ∨ i.toNat ≥ r.m_openClDeviceList.length := by omega
      simp [h1, h2, h2', Outcome.fault]
    · have h2' : ¬ (i < 0 ∨ i.toNat ≥ r.m_openClDeviceList.length) := by omega
      have hlt : i.toNat < r.m_openClDeviceList.length := by omega
      simp only [ne_eq, h1, not_false_eq_true, if_true, h2', if_false, h2, and_false]
      rw [List.getElem?_eq_getElem hlt]
      simp [Outcome.fault]

/-- C6: for every renderer state and index `i`: if `i` is outside
`[0, count)` the call leaves the whole state (current index, compute context,
emitted signals) as it was; if `0 <= i < count` and `i` differs from the
current index, the call completes, the current index is `i`, the context is a
newly allocated one for the platform and device of entry `i`, and the
emitted signals are the earlier ones followed by exactly one
`currentOpenClDeviceListIndexChanged i`. -/
theorem setCurrentOpenClDeviceListIndexSlot_postcondition (i : Int) (r : Renderer) :
    ((i < 0 ∨ (r.m_openClDeviceList.length : Int) ≤ i) →
        (setCurrentOpenClDeviceListIndexSlot i r).state = r) ∧
      (∀ entry, 0 ≤ i → r.m_openClDeviceList[i.toNat]? = some entry →
        i ≠ r.m_currOpenClDeviceListEntry →
        ∃ r', setCurrentOpenClDeviceListIndexSlot i r = .ok r' ∧
          r'.m_currOpenClDeviceListEntry = i ∧
          r'.m_openClContext = some
            { serial := r.nextSerial, platform := entry.platform, device := entry.device,
              glInterop := false } ∧
          r'.nextSerial = r.nextSerial + 1 ∧
          r'.emitted = r.emitted ++ [Signal.currentOpenClDeviceListIndexChanged i]) := by
  refine ⟨?_, ?_⟩
  · intro h
    have h' : i < 0 ∨ i.toNat ≥ r.m_openClDeviceList.length := by omega
    unfold setCurrentOpenClDeviceListIndexSlot
    by_cases h1 : i = r.m_currOpenClDeviceListEntry
    · simp [h1, Outcome.state]
    · simp [h1, h', Outcome.state]
  · intro entry h0 hent hne
    have hlt : i.toNat < r.m_openClDeviceList.length := by
      rcases List.getElem?_eq_some_iff.mp hent with ⟨h, _⟩
      exact h
    have h' : ¬ (i < 0 ∨ i.toNat ≥ r.m_openClDeviceList.length) := by omega
    unfold setCurrentOpenClDeviceListIndexSlot
    simp only [ne_eq, hne, not_false_eq_true, if_true, h', if_false, hent]
    exact ⟨_, rfl, rfl, rfl, rfl, rfl⟩

theorem setCurrentOpenClDeviceListIndexSlot_postcondition_witness :
    (setCurrentOpenClDeviceListIndexSlot 5 (makeClContext exampleGpuHost Renderer.constructed).state).state
        = (makeClContext exampleGpuHost Renderer.constructed).state ∧
      ∃ r', setCurrentOpenClDeviceListIndexSlot 1
            (makeClContext exampleGpuHost Renderer.constructed).state = .ok r' ∧
          r'.m_currOpenClDeviceListEntry = 1 ∧
          r'.m_openClContext = some
            { serial := 1, platform := 100, device := 102, glInterop := false } ∧
          r'.nextSerial = 2 ∧
          r'.emitted =
            [Signal.openClDeviceListChanged ["Tahiti (GPU) (OpenCL 1.2)", "[unnamed] (CPU) ([unknown])"],
              Signal.currentOpenClDeviceListIndexChanged 0,
              Signal.currentOpenClDeviceListIndexChanged 1] :=
  ⟨(setCurrentOpenClDeviceListIndexSlot_postcondition 5
      (makeClContext exampleGpuHost Renderer.constructed).state).1 (Or.inr (by decide)),
    (setCurrentOpenClDeviceListIndexSlot_postcondition 1
      (makeClContext exampleGpuHost Renderer.constructed).state).2
      { description := "[unnamed] (CPU) ([unknown])", type := CL_DEVICE_TYPE_CPU,
        platform := 100, device := 102 }
      (by decide) (by decide) (by decide)⟩

/-! ## Lemmas on the image and histogram resources -/

theorem execHistoCalcCreate_ok (r r' : Renderer) (h : execHistoCalcCreate r = .ok r') :
    r'.m_histogramGlBuffer ≠ none ∧ r'.m_openClContext = r.m_openClContext ∧
      r'.m_image = r.m_image ∧ r'.m_imageCl = r.m_imageCl ∧ r'.m_imageData = r.m_imageData ∧
      r'.m_imageSize = r.m_imageSize ∧ r'.m_histogram = r.m_histogram ∧
      r'.m_histogramBinCount = r.m_histogramBinCount := by
  unfold execHistoCalcCreate at h
  simp only at h
  split at h
  · exact absurd h (by simp)
  · split at h
    · exact absurd h (by simp)
    · split at h
      · exact absurd h (by simp)
      · split at h
        · exact absurd h (by simp)
        · injection h with h
          subst h
          simp_all

theorem execHistoCalcPass_ok (r r' : Renderer) (h : execHistoCalcPass r = .ok r') :
    r' = { r with
      m_histogramData := vectorResize r.m_histogramData r.m_histogramBinCount
      histoCalcPasses := r.histoCalcPasses + 1 } := by
  unfold execHistoCalcPass at h
  split at h
  · simp at h
  · split at h
    · simp at h
    · split at h
      · simp at h
      · split at h
        · simp at h
        · split at h
          · simp at h
          · split at h
            · simp at h
            · injection h with h
              exact h.symm

theorem execHistoCalcPass_state (r : Renderer) :
    Outcome.state (execHistoCalcPass r) = r ∨
      Outcome.state (execHistoCalcPass r) = { r with
        m_histogramData := vectorResize r.m_histogramData r.m_histogramBinCount
        histoCalcPasses := r.histoCalcPasses + 1 } := by
  cases h : execHistoCalcPass r with
  | ok r' => exact Or.inr (execHistoCalcPass_ok r r' h)
  | error e =>
    left
    unfold execHistoCalcPass at h
    split at h
    · injection h with h; subst h; rfl
    · split at h
      · injection h with h; subst h; rfl
      · split at h
        · injection h with h; subst h; rfl
        · split at h
          · injection h with h; subst h; rfl
          · split at h
            · injection h with h; subst h; rfl
            · split at h
              · injection h with h; subst h; rfl
              · simp at h

theorem execHistoCalc_ok (r r' : Renderer) (h : execHistoCalc r = .ok r') :
    r'.m_histogramGlBuffer ≠ none ∧ r'.m_openClContext = r.m_openClContext ∧
      r'.m_image = r.m_image ∧ r'.m_imageCl = r.m_imageCl ∧ r'.m_imageData = r.m_imageData ∧
      r'.m_imageSize = r.m_imageSize ∧ r'.m_histogram = r.m_histogram ∧
      r'.m_histogramBinCount = r.m_histogramBinCount := by
  unfold execHistoCalc at h
  simp only [bind, Except.bind] at h
  by_cases hgl : r.m_histogramGlBuffer = none
  · rw [if_pos hgl] at h
    cases hc : execHistoCalcCreate r with
    | error e => rw [hc] at h; simp at h
    | ok r1 =>
      rw [hc] at h
      have h1 := execHistoCalcCreate_ok r r1 hc
      rw [execHistoCalcPass_ok r1 r' h]
      simpa using h1
  · rw [if_neg hgl] at h
    rw [execHistoCalcPass_ok r r' h]
    simpa using hgl

theorem execHistoCalc_null_blocks (r : Renderer) (hgl : r.m_histogramGlBuffer ≠ none)
    (hb : r.m_histogramBlocks = none) :
    execHistoCalc r = .error (.nullDereference .m_histogramBlocks, r) := by
  unfold execHistoCalc
  simp only [bind, Except.bind]
  rw [if_neg hgl]
  unfold execHistoCalcPass
  simp only [hb]

theorem newImageSlotUpload_ok (imageData : ImageData) (imageSize : QSize) (filter : Bool)
    (r r' : Renderer) (h : newImageSlotUpload imageData imageSize filter r = .ok r') :
    r'.m_imageData = imageData ∧ r'.m_imageSize = imageSize ∧
      (∃ image, r'.m_image = some image ∧ image.created = true) ∧
      r'.m_openClContext ≠ none ∧ r'.m_openClContext = r.m_openClContext ∧
      r'.m_histogramGlBuffer = r.m_histogramGlBuffer ∧ r'.m_histogram = r.m_histogram ∧
      r'.m_histogramBinCount = r.m_histogramBinCount := by
  unfold newImageSlotUpload at h
  simp only at h
  split at h
  · simp at h
  · rename_i image himage
    split at h
    · simp at h
    · rename_i context hcontext
      injection h with h
      subst h
      have hcreated : image.created = true := by
        revert himage
        cases hi : r.m_image with
        | none =>
          simp only
          intro himage
          injection himage with himage
          rw [← himage]
        | some old =>
          simp only
          by_cases hc : old.created = true
          · rw [if_pos hc]
            simp only [hi]
            intro himage
            injection himage with himage
            rw [← himage]; exact hc
          · rw [if_neg hc]
            simp only
            intro himage
            injection himage with himage
            rw [← himage]
      have hctx : r.m_openClContext = some context := by
        revert hcontext
        cases hi : r.m_image with
        | none => simp
        | some old =>
          simp only
          by_cases hc : old.created = true
          · rw [if_pos hc]; simp
          · rw [if_neg hc]; simp
      refine ⟨?_, ?_, ⟨_, rfl, hcreated⟩, ?_, ?_, ?_, ?_, ?_⟩
      all_goals
        cases hi : r.m_image with
        | none => simp [hctx]
        | some old =>
          by_cases hc : old.created = true
          · simp [hc, hctx]
          · simp [hc, hctx]

theorem newImageSlot_ok (imageData : ImageData) (imageSize : QSize) (filter : Bool)
    (r r' : Renderer) (hdata : imageData ≠ [])
    (h : newImageSlot imageData imageSize filter r = .ok r') :
    r'.hasLiveImage ∧ r'.m_imageData = imageData ∧ r'.m_imageSize = imageSize ∧
      r'.m_histogram = r.m_histogram := by
  have hne : imageData.isEmpty = false := by
    cases imageData with
    | nil => exact absurd rfl hdata
    | cons _ _ => rfl
  unfold newImageSlot at h
  simp only [bind, Except.bind, hne, Bool.not_false, if_true, Bool.false_or] at h
  split at h
  · simp at h
  · rename_i r1 hr1
    split at h
    · simp at h
    · rename_i r2 hr2
      injection h with h
      subst h
      have hu := newImageSlotUpload_ok _ _ _ _ _ hr1
      have hc := execHistoCalc_ok _ _ hr2
      obtain ⟨hu1, hu2, ⟨image, hu3, hu4⟩, hu5, _, _, hu8, _⟩ := hu
      obtain ⟨hc1, hc2, hc3, _, hc5, hc6, hc7, _⟩ := hc
      have hhist : r1.m_histogram = r.m_histogram := by
        rw [hu8]
        split
        · simp only [delHistogramBlocks, delImage]
          split
          · split <;> rfl
          · rfl
        · rfl
      refine ⟨⟨?_, ⟨image, ?_, hu4⟩, ?_, ?_⟩, ?_, ?_, ?_⟩
      · simp only [execHistoDraw, execImageDraw, hc5, hu1]; exact hdata
      · simp only [execHistoDraw, execImageDraw, hc3, hu3]
      · simp only [execHistoDraw, execImageDraw, hc2]; exact hu5
      · simpa only [execHistoDraw, execImageDraw] using hc1
      · simp only [execHistoDraw, execImageDraw, hc5, hu1]
      · simp only [execHistoDraw, execImageDraw, hc6, hu2]
      · simp only [execHistoDraw, execImageDraw, hc7, hhist]

/-- C7 (code defect): for every state with a live image and every non-empty
request of another size, `newImageSlot` stops in `execHistoCalc` on the
dereference of the empty `m_histogramBlocks`: the texture and the
compute-side view are new allocations, but the blocks buffer, the zero block
and the kernel constants buffer were reset and are not recreated, because the
creation block is skipped while `m_histogramGlBuffer` is set. -/
theorem newImageSlot_resize_blocks_missing (imageData : ImageData) (imageSize : QSize)
    (filter : Bool) (r : Renderer) (hlive : r.hasLiveImage) (hdata : imageData ≠ [])
    (hsize : r.m_imageSize ≠ imageSize) :
    ∃ r', newImageSlot imageData imageSize filter r
          = .error (.nullDereference .m_histogramBlocks, r') ∧
      r'.m_histogramBlocks = none ∧ r'.m_histogramZeroBlock = none ∧
      r'.m_histoXxKernArgs = none ∧ r'.histoCalcPasses = r.histoCalcPasses ∧
      (∃ image, r'.m_image = some image ∧ image.serial = r.nextSerial) ∧
      (∃ imageCl, r'.m_imageCl = some imageCl ∧ imageCl.serial = r.nextSerial + 1) := by
  obtain ⟨hd, ⟨image, himage, hcreated⟩, hctx, hgl⟩ := hlive
  have hne : imageData.isEmpty = false := by
    cases imageData with
    | nil => exact absurd rfl hdata
    | cons _ _ => rfl
  have hne' : r.m_imageData.isEmpty = false := by
    cases hq : r.m_imageData with
    | nil => exact absurd hq hd
    | cons _ _ => rfl
  cases hcontext : r.m_openClContext with
  | none => exact absurd hcontext hctx
  | some context =>
    unfold newImageSlot
    simp only [bind, Except.bind, hne, hne', Bool.not_false, Bool.false_or, Bool.true_and,
      bne_iff_ne, ne_eq, hsize, not_false_eq_true, if_true, decide_True]
    simp only [delImage, himage, hcreated, if_true, delHistogramBlocks, newImageSlotUpload,
      hcontext]
    rw [execHistoCalc_null_blocks]
    · exact ⟨_, rfl, rfl, rfl, rfl, rfl, ⟨_, rfl, rfl⟩, ⟨_, rfl, rfl⟩⟩
    · exact hgl
    · rfl

theorem newImageSlot_resize_blocks_missing_witness :
    exampleLiveRenderer.hasLiveImage ∧ ([1, 2, 3, 4, 5, 6] : ImageData) ≠ [] ∧
      exampleLiveRenderer.m_imageSize ≠ QSize.mk 3 2 ∧
      ∃ r', newImageSlot [1, 2, 3, 4, 5, 6] (QSize.mk 3 2) false exampleLiveRenderer
            = .error (.nullDereference .m_histogramBlocks, r') ∧
        r'.m_histogramBlocks = none ∧ r'.m_histogramZeroBlock = none ∧
        r'.m_histoXxKernArgs = none ∧ r'.histoCalcPasses = exampleLiveRenderer.histoCalcPasses ∧
        (∃ image, r'.m_image = some image ∧ image.serial = exampleLiveRenderer.nextSerial) ∧
        (∃ imageCl, r'.m_imageCl = some imageCl ∧
          imageCl.serial = exampleLiveRenderer.nextSerial + 1) :=
  ⟨⟨by decide, ⟨_, rfl, rfl⟩, by decide, by decide⟩, by decide, by decide,
    newImageSlot_resize_blocks_missing [1, 2, 3, 4, 5, 6] (QSize.mk 3 2) false
      exampleLiveRenderer ⟨by decide, ⟨_, rfl, rfl⟩, by decide, by decide⟩ (by decide)
      (by decide)⟩

/-- C8 (code defect): for every state with a live image whose histogram
texture name is the sentinel (its value in every state reached from the
constructor, since nothing assigns it) and every bin count `n` different
from the current one, `setHistogramBinCountSlot n` stops in `execHistoCalc` on
the dereference of the empty `m_histogramBlocks`: `delHistogram` did nothing,
so the GL buffer and the shared CL buffer are the old ones, no buffer is
created for `n`, no compute pass and no histogram redraw complete, and the
cached snapshot keeps its old contents and length. -/
theorem setHistogramBinCountSlot_live_image_blocks_missing (n : Nat) (r : Renderer)
    (hlive : r.hasLiveImage) (hhist : r.m_histogram = none) (hn : n ≠ r.m_histogramBinCount) :
    ∃ r', setHistogramBinCountSlot n r = .error (.nullDereference .m_histogramBlocks, r') ∧
      r'.m_histogramBinCount = n ∧
      r'.m_histogramGlBuffer = r.m_histogramGlBuffer ∧
      r'.m_histogramClBuffer = r.m_histogramClBuffer ∧
      r'.m_histogramBlocks = none ∧
      r'.histoCalcPasses = r.histoCalcPasses ∧
      r'.histoDrawCalls = r.histoDrawCalls ∧
      r'.m_histogramData = r.m_histogramData := by
  obtain ⟨hd, _, _, hgl⟩ := hlive
  have hne' : r.m_imageData.isEmpty = false := by
    cases hq : r.m_imageData with
    | nil => exact absurd hq hd
    | cons _ _ => rfl
  unfold setHistogramBinCountSlot
  simp only [ne_eq, hn, not_false_eq_true, if_true, bind, Except.bind, delHistogram,
    delHistogramBlocks, hhist, hne', Bool.not_false]
  rw [execHistoCalc_null_blocks]
  · exact ⟨_, rfl, rfl, rfl, rfl, rfl, rfl, rfl, rfl⟩
  · exact hgl
  · rfl

theorem setHistogramBinCountSlot_live_image_blocks_missing_witness :
    exampleLiveRenderer.hasLiveImage ∧ exampleLiveRenderer.m_histogram = none ∧
      1024 ≠ exampleLiveRenderer.m_histogramBinCount ∧
      ∃ r', setHistogramBinCountSlot 1024 exampleLiveRenderer
            = .error (.nullDereference .m_histogramBlocks, r') ∧
        r'.m_histogramBinCount = 1024 ∧
        r'.m_histogramGlBuffer = exampleLiveRenderer.m_histogramGlBuffer ∧
        r'.m_histogramClBuffer = exampleLiveRenderer.m_histogramClBuffer ∧
        r'.m_histogramBlocks = none ∧
        r'.histoCalcPasses = exampleLiveRenderer.histoCalcPasses ∧
        r'.histoDrawCalls = exampleLiveRenderer.histoDrawCalls ∧
        r'.m_histogramData = exampleLiveRenderer.m_histogramData :=
  ⟨⟨by decide, ⟨_, rfl, rfl⟩, by decide, by decide⟩, by decide, by decide,
    setHistogramBinCountSlot_live_image_blocks_missing 1024 exampleLiveRenderer
      ⟨by decide, ⟨_, rfl, rfl⟩, by decide, by decide⟩ (by decide) (by decide)⟩

/-- C9 (code defect): in every compute pass entered while the histogram GL
buffer exists, the constants are not uploaded: whatever the pass does, it
leaves `m_histoXxKernArgs` as it found it, and when that buffer and the blocks
buffer have been reset (as `delHistogramBlocks` does on a change of image
size or bin count) the pass stops on the empty `m_histogramBlocks` before any
kernel is dispatched. -/
theorem execHistoCalc_constants_not_uploaded (r : Renderer)
    (hgl : r.m_histogramGlBuffer ≠ none) :
    (Outcome.state (execHistoCalc r)).m_histoXxKernArgs = r.m_histoXxKernArgs ∧
      (r.m_histoXxKernArgs = none → r.m_histogramBlocks = none →
        execHistoCalc r = .error (.nullDereference .m_histogramBlocks, r) ∧
        (Outcome.state (execHistoCalc r)).m_histoXxKernArgs = none) := by
  have h1 : (Outcome.state (execHistoCalc r)).m_histoXxKernArgs = r.m_histoXxKernArgs := by
    unfold execHistoCalc
    simp only [bind, Except.bind]
    rw [if_neg hgl]
    rcases execHistoCalcPass_state r with h | h <;> rw [h]
  refine ⟨h1, ?_⟩
  intro hk hb
  exact ⟨execHistoCalc_null_blocks r hgl hb, by rw [h1, hk]⟩

theorem execHistoCalc_constants_not_uploaded_witness :
    exampleResizedRenderer.m_histogramGlBuffer ≠ none ∧
      exampleResizedRenderer.m_imageSize = QSize.mk 3 2 ∧
      exampleLiveRenderer.m_imageSize = QSize.mk 2 1 ∧
      exampleResizedRenderer.m_histoXxKernArgs = none ∧
      exampleResizedRenderer.m_histogramBlocks = none ∧
      execHistoCalc exampleResizedRenderer
        = .error (.nullDereference .m_histogramBlocks, exampleResizedRenderer) ∧
      (Outcome.state (execHistoCalc exampleResizedRenderer)).m_histoXxKernArgs = none :=
  ⟨by decide, by decide, by decide, by decide, by decide,
    ((execHistoCalc_constants_not_uploaded exampleResizedRenderer (by decide)).2
      (by decide) (by decide)).1,
    ((execHistoCalc_constants_not_uploaded exampleResizedRenderer (by decide)).2
      (by decide) (by decide)).2⟩

/-! ## Lemmas on coalesced view updates -/

theorem updateView_already_pending (view : View) (r : Renderer)
    (hview : view ≠ .otherView) (hp : r.updatePending view = true) :
    updateView view r = .ok r := by
  cases r
  cases view <;> simp_all [updateView, Renderer.updatePending]

theorem updateViewTimes_already_pending (view : View) (n : Nat) (r : Renderer)
    (hview : view ≠ .otherView) (hp : r.updatePending view = true) :
    updateViewTimes view n r = .ok r := by
  induction n with
  | zero => rfl
  | succ n ih =>
    simp only [updateViewTimes, bind, Except.bind, updateView_already_pending view r hview hp]
    exact ih

theorem updateViewSlot_foldl_idle (view : View) (q : List View) (s : Renderer)
    (hp : s.updatePending view = false) :
    (q.foldl (fun s v => updateViewSlot v s) s).updatePending view = false ∧
      (q.foldl (fun s v => updateViewSlot v s) s).drawCalls view = s.drawCalls view ∧
      (q.foldl (fun s v => updateViewSlot v s) s).updateViewQueue = s.updateViewQueue := by
  induction q generalizing s with
  | nil => exact ⟨hp, rfl, rfl⟩
  | cons v vs ih =>
    simp only [List.foldl_cons]
    have hstep : (updateViewSlot v s).updatePending view = false ∧
        (updateViewSlot v s).drawCalls view = s.drawCalls view ∧
        (updateViewSlot v s).updateViewQueue = s.updateViewQueue := by
      cases view <;> cases v <;>
        simp_all [updateViewSlot, Renderer.updatePending, Renderer.drawCalls, execImageDraw,
          execHistoDraw] <;>
        split <;> simp_all
    obtain ⟨h1, h2, h3⟩ := ih (updateViewSlot v s) hstep.1
    exact ⟨h1, by rw [h2, hstep.2.1], by rw [h3, hstep.2.2]⟩

theorem updateViewSlot_foldl_pending (view : View) (q : List View) (s : Renderer)
    (hp : s.updatePending view = true) (hq : view ∈ q) :
    (q.foldl (fun s v => updateViewSlot v s) s).updatePending view = false ∧
      (q.foldl (fun s v => updateViewSlot v s) s).drawCalls view = s.drawCalls view + 1 ∧
      (q.foldl (fun s v => updateViewSlot v s) s).updateViewQueue = s.updateViewQueue := by
  induction q generalizing s with
  | nil => simp at hq
  | cons v vs ih =>
    simp only [List.foldl_cons]
    by_cases hv : v = view
    · subst hv
      have hstep : (updateViewSlot v s).updatePending v = false ∧
          (updateViewSlot v s).drawCalls v = s.drawCalls v + 1 ∧
          (updateViewSlot v s).updateViewQueue = s.updateViewQueue := by
        cases v <;>
          simp_all [updateViewSlot, Renderer.updatePending, Renderer.drawCalls, execImageDraw,
            execHistoDraw]
      obtain ⟨h1, h2, h3⟩ := updateViewSlot_foldl_idle v vs (updateViewSlot v s) hstep.1
      exact ⟨h1, by rw [h2, hstep.2.1], by rw [h3, hstep.2.2]⟩
    · have hmem : view ∈ vs := by
        rcases List.mem_cons.mp hq with h | h
        · exact absurd h.symm hv
        · exact h
      have hstep : (updateViewSlot v s).updatePending view = true ∧
          (updateViewSlot v s).drawCalls view = s.drawCalls view ∧
          (updateViewSlot v s).updateViewQueue = s.updateViewQueue := by
        cases view <;> cases v <;>
          simp_all [updateViewSlot, Renderer.updatePending, Renderer.drawCalls, execImageDraw,
            execHistoDraw] <;>
          split <;> simp_all
      obtain ⟨h1, h2, h3⟩ := ih (updateViewSlot v s) hstep.1 hmem
      exact ⟨h1, by rw [h2, hstep.2.1], by rw [h3, hstep.2.2]⟩

/-- C10: for every `N >= 1` and either view (image or histogram) that has a
context and whose pending flag is clear, `N` successive `updateView` calls
all complete and append exactly one `_updateView` call for that view to the
queue, whatever the queue held; draining the queue then executes exactly one
draw call for that view, leaves its pending flag clear and the queue empty. -/
theorem updateView_coalescing (view : View) (N : Nat) (r : Renderer) (hN : 1 ≤ N)
    (hview : view = .imageView ∨ view = .histogramView)
    (hctx : r.viewContext view = true) (hidle : r.updatePending view = false) :
    ∃ r', updateViewTimes view N r = .ok r' ∧
      r'.updateViewQueue = r.updateViewQueue ++ [view] ∧
      r'.drawCalls view = r.drawCalls view ∧
      (drainUpdateViewQueue r').drawCalls view = r.drawCalls view + 1 ∧
      (drainUpdateViewQueue r').updatePending view = false ∧
      (drainUpdateViewQueue r').updateViewQueue = [] := by
  obtain ⟨n, rfl⟩ : ∃ n, N = n + 1 := ⟨N - 1, by omega⟩
  have hne : view ≠ .otherView := by
    rcases hview with h | h <;> rw [h] <;> decide
  -- the first request sets the flag and queues the call
  obtain ⟨r1, h1, hq1, hp1, hd1⟩ : ∃ r1, updateView view r = .ok r1 ∧
      r1.updateViewQueue = r.updateViewQueue ++ [view] ∧ r1.updatePending view = true ∧
      r1.drawCalls view = r.drawCalls view := by
    rcases hview with h | h <;> subst h <;>
      simp_all [updateView, Renderer.updatePending, Renderer.viewContext, Renderer.drawCalls]
  refine ⟨r1, ?_, hq1, hd1, ?_⟩
  · simp only [updateViewTimes, bind, Except.bind, h1]
    exact updateViewTimes_already_pending view n r1 hne hp1
  · unfold drainUpdateViewQueue
    have hp1' : ({ r1 with updateViewQueue := [] } : Renderer).updatePending view = true := by
      cases view <;> exact hp1
    have hd1' : ({ r1 with updateViewQueue := [] } : Renderer).drawCalls view
        = r.drawCalls view := by
      cases view <;> exact hd1
    obtain ⟨a, b, c⟩ := updateViewSlot_foldl_pending view r1.updateViewQueue
      { r1 with updateViewQueue := [] } hp1' (by rw [hq1]; simp)
    exact ⟨by rw [b, hd1'], a, c⟩

theorem updateView_coalescing_witness :
    (1 ≤ 5) ∧ (View.histogramView = .imageView ∨ View.histogramView = .histogramView) ∧
      exampleInitRenderer.viewContext .histogramView = true ∧
      exampleInitRenderer.updatePending .histogramView = false ∧
      ∃ r', updateViewTimes .histogramView 5 exampleInitRenderer = .ok r' ∧
        r'.updateViewQueue = exampleInitRenderer.updateViewQueue ++ [View.histogramView] ∧
        r'.drawCalls .histogramView = exampleInitRenderer.drawCalls .histogramView ∧
        (drainUpdateViewQueue r').drawCalls .histogramView
          = exampleInitRenderer.drawCalls .histogramView + 1 ∧
        (drainUpdateViewQueue r').updatePending .histogramView = false ∧
        (drainUpdateViewQueue r').updateViewQueue = [] :=
  ⟨by decide, by decide, by decide, by decide,
    updateView_coalescing .histogramView 5 exampleInitRenderer (by decide) (by decide)
      (by decide) (by decide)⟩

/-! ## Claims on update requests without a context and during a draw -/

/-- C11 (code defect): for either view without a context, `updateView` still
sets the view's pending flag (the `exchange(true)` precedes the context test)
and queues nothing; once the contexts exist (`makeGlContexts`), any number of
further update requests find the flag set and queue nothing either, so no
redraw is ever queued for the view. -/
theorem updateView_without_context_sets_flag (view : View) (n : Nat) (r : Renderer)
    (hview : view = .imageView ∨ view = .histogramView)
    (hctx : r.viewContext view = false) :
    ∃ r1, updateView view r = .ok r1 ∧ r1.updatePending view = true ∧
      r1.updateViewQueue = r.updateViewQueue ∧
      (makeGlContexts r1).viewContext view = true ∧
      ∃ r2, updateViewTimes view n (makeGlContexts r1) = .ok r2 ∧
        r2.updatePending view = true ∧ r2.updateViewQueue = r.updateViewQueue := by
  have hne : view ≠ .otherView := by
    rcases hview with h | h <;> rw [h] <;> decide
  obtain ⟨r1, h1, hp1, hq1⟩ : ∃ r1, updateView view r = .ok r1 ∧
      r1.updatePending view = true ∧ r1.updateViewQueue = r.updateViewQueue := by
    rcases hview with h | h <;> subst h <;>
      simp_all [updateView, Renderer.updatePending, Renderer.viewContext]
  have hp2 : (makeGlContexts r1).updatePending view = true := by
    cases view <;> exact hp1
  have hc2 : (makeGlContexts r1).viewContext view = true := by
    rcases hview with h | h <;> subst h <;> rfl
  refine ⟨r1, h1, hp1, hq1, hc2, makeGlContexts r1,
    updateViewTimes_already_pending view n _ hne hp2, hp2, ?_⟩
  rw [← hq1]
  rfl

theorem updateView_without_context_sets_flag_witness :
    (View.imageView = .imageView ∨ View.imageView = .histogramView) ∧
      Renderer.constructed.viewContext .imageView = false ∧
      Renderer.constructed.updatePending .imageView = false ∧
      ∃ r1, updateView .imageView Renderer.constructed = .ok r1 ∧
        r1.updatePending .imageView = true ∧
        r1.updateViewQueue = Renderer.constructed.updateViewQueue ∧
        (makeGlContexts r1).viewContext .imageView = true ∧
        ∃ r2, updateViewTimes .imageView 3 (makeGlContexts r1) = .ok r2 ∧
          r2.updatePending .imageView = true ∧
          r2.updateViewQueue = Renderer.constructed.updateViewQueue :=
  ⟨by decide, by decide, by decide,
    updateView_without_context_sets_flag .imageView 3 Renderer.constructed (by decide)
      (by decide)⟩

/-- C12: for either view: when the view is pending, `updateViewSlot` issues
exactly one draw call, and the draw log shows the view's pending flag already
false at the moment that call is issued; the slot is the return of that draw
call from a state `s` in which the flag is clear, so when the view has a
context an `updateView` arriving in `s` (during the draw) sets the flag again
and appends one `_updateView` call to the queue, both survive the return of
the draw, and the slot run for that queued call draws once more; when the
view is not pending the slot issues no draw and leaves the state as it was. -/
theorem updateViewSlot_clears_flag_before_draw (view : View) (r : Renderer)
    (hview : view = .imageView ∨ view = .histogramView) :
    (∀ s, endViewDraw view (beginViewDraw view s) =
        match view with
        | .imageView => execImageDraw s
        | .histogramView => execHistoDraw s
        | .otherView => s) ∧
      (r.updatePending view = true →
        (updateViewSlot view r).drawLog
            = r.drawLog ++ [{ view := view, updatePending := false }] ∧
          (updateViewSlot view r).drawCalls view = r.drawCalls view + 1 ∧
          (updateViewSlot view r).updatePending view = false ∧
          ∃ s, updateViewSlot view r = endViewDraw view s ∧
            s.updatePending view = false ∧
            s.drawLog = r.drawLog ++ [{ view := view, updatePending := false }] ∧
            s.drawCalls view = r.drawCalls view ∧
            (r.viewContext view = true →
              ∃ s', updateView view s = .ok s' ∧ s'.updatePending view = true ∧
                s'.updateViewQueue = r.updateViewQueue ++ [view] ∧
                (endViewDraw view s').updatePending view = true ∧
                (endViewDraw view s').updateViewQueue = r.updateViewQueue ++ [view] ∧
                (endViewDraw view s').drawLog
                  = r.drawLog ++ [{ view := view, updatePending := false }] ∧
                (endViewDraw view s').drawCalls view = r.drawCalls view + 1 ∧
                (updateViewSlot view (endViewDraw view s')).drawCalls view
                  = r.drawCalls view + 2)) ∧
      (r.updatePending view = false →
        updateViewSlot view r = r ∧ (updateViewSlot view r).drawLog = r.drawLog ∧
          (updateViewSlot view r).drawCalls view = r.drawCalls view) := by
  rcases hview with h | h <;> subst h
  · refine ⟨fun s => rfl, ?_, ?_⟩
    · intro hp
      simp only [Renderer.updatePending] at hp
      refine ⟨?_, ?_, ?_, beginViewDraw .imageView { r with m_imageViewUpdatePending := false },
        ?_, rfl, rfl, rfl, ?_⟩
      · simp [updateViewSlot, hp, execImageDraw]
      · simp [updateViewSlot, hp, execImageDraw, Renderer.drawCalls]
      · simp [updateViewSlot, hp, execImageDraw, Renderer.updatePending]
      · simp [updateViewSlot, hp, execImageDraw, endViewDraw, beginViewDraw,
          Renderer.updatePending]
      · intro hctx
        simp only [Renderer.viewContext] at hctx
        simp [updateView, hctx, Renderer.updatePending, endViewDraw, beginViewDraw,
          Renderer.drawCalls, updateViewSlot, execImageDraw]
    · intro hp
      simp only [Renderer.updatePending] at hp
      simp [updateViewSlot, hp]
  · refine ⟨fun s => rfl, ?_, ?_⟩
    · intro hp
      simp only [Renderer.updatePending] at hp
      refine ⟨?_, ?_, ?_,
        beginViewDraw .histogramView { r with m_histogramViewUpdatePending := false },
        ?_, rfl, rfl, rfl, ?_⟩
      · simp [updateViewSlot, hp, execHistoDraw]
      · simp [updateViewSlot, hp, execHistoDraw, Renderer.drawCalls]
      · simp [updateViewSlot, hp, execHistoDraw, Renderer.updatePending]
      · simp [updateViewSlot, hp, execHistoDraw, endViewDraw, beginViewDraw,
          Renderer.updatePending]
      · intro hctx
        simp only [Renderer.viewContext] at hctx
        simp [updateView, hctx, Renderer.updatePending, endViewDraw, beginViewDraw,
          Renderer.drawCalls, updateViewSlot, execHistoDraw]
    · intro hp
      simp only [Renderer.updatePending] at hp
      simp [updateViewSlot, hp]

theorem updateViewSlot_clears_flag_before_draw_witness :
    (View.imageView = .imageView ∨ View.imageView = .histogramView) ∧
      examplePendingRenderer.updatePending .imageView = true ∧
      examplePendingRenderer.viewContext .imageView = true ∧
      examplePendingRenderer.drawLog = [] ∧
      (updateViewSlot .imageView examplePendingRenderer).drawLog
        = examplePendingRenderer.drawLog ++ [{ view := .imageView, updatePending := false }] ∧
      (updateViewSlot .imageView examplePendingRenderer).drawCalls .imageView
        = examplePendingRenderer.drawCalls .imageView + 1 ∧
      (updateViewSlot .imageView examplePendingRenderer).updatePending .imageView = false :=
  ⟨by decide, by decide, by decide, by decide,
    ((updateViewSlot_clears_flag_before_draw .imageView examplePendingRenderer
      (by decide)).2.1 (by decide)).1,
    ((updateViewSlot_clears_flag_before_draw .imageView examplePendingRenderer
      (by decide)).2.1 (by decide)).2.1,
    ((updateViewSlot_clears_flag_before_draw .imageView examplePendingRenderer
      (by decide)).2.1 (by decide)).2.2.1⟩

/-! ## Claims on `showImage` -/

/-- C13: for every state and request, `showImage` throws the
invalid-dimensions exception exactly when the data is non-empty and the width
or the height is not positive; when it throws the state is unchanged (the
extrema future is not replaced and no `_newImage` is queued); with empty data
it never fails, whatever the size. -/
theorem showImage_fault (imageData : ImageData) (imageSize : QSize) (filter : Bool)
    (r : Renderer) :
    (Outcome.fault (showImage imageData imageSize filter r) =
        if imageData ≠ [] ∧ (imageSize.width ≤ 0 ∨ imageSize.height ≤ 0)
        then some (Fault.thrown RisWidgetException.invalidImageSize) else none) ∧
      (imageData ≠ [] ∧ (imageSize.width ≤ 0 ∨ imageSize.height ≤ 0) →
        Outcome.state (showImage imageData imageSize filter r) = r) ∧
      (imageData = [] → Outcome.fault (showImage imageData imageSize filter r) = none) := by
  cases imageData with
  | nil => simp [showImage, Outcome.fault, bind, Except.bind]
  | cons p ps =>
    by_cases h : imageSize.width ≤ 0 ∨ imageSize.height ≤ 0
    · simp [showImage, Outcome.fault, Outcome.state, bind, Except.bind, h]
    · simp [showImage, Outcome.fault, Outcome.state, bind, Except.bind, h]

theorem showImage_fault_witness :
    (([1, 2] : ImageData) ≠ [] ∧ ((QSize.mk 2 0).width ≤ 0 ∨ (QSize.mk 2 0).height ≤ 0)) ∧
      Outcome.state (showImage [1, 2] (QSize.mk 2 0) false exampleLiveRenderer)
        = exampleLiveRenderer ∧
      Outcome.fault (showImage [1, 2] (QSize.mk 2 0) false exampleLiveRenderer)
        = some (Fault.thrown RisWidgetException.invalidImageSize) ∧
      Outcome.fault (showImage [] (QSize.mk (-3) 0) false exampleLiveRenderer) = none :=
  ⟨by decide,
    (showImage_fault [1, 2] (QSize.mk 2 0) false exampleLiveRenderer).2.1 (by decide),
    by decide,
    (showImage_fault [] (QSize.mk (-3) 0) false exampleLiveRenderer).2.2 rfl⟩

/-- C14: for every state, `showImage` with empty data completes and leaves
the null future stored, whatever future was stored before; `showImage` with
non-empty data and positive dimensions completes and leaves stored the future
of the scan of that data, which delivers `findImageExtrema` of that data. -/
theorem showImage_future (imageData : ImageData) (imageSize : QSize) (filter : Bool)
    (r : Renderer) :
    (imageData = [] →
        ∃ r', showImage imageData imageSize filter r = .ok r' ∧
          r'.m_imageExtremaFuture = none) ∧
      (imageData ≠ [] → 0 < imageSize.width → 0 < imageSize.height →
        ∃ r', showImage imageData imageSize filter r = .ok r' ∧
          r'.m_imageExtremaFuture = some { imageData := imageData } ∧
          r'.m_imageExtremaFuture.map ExtremaFuture.get = some (findImageExtrema imageData)) := by
  refine ⟨?_, ?_⟩
  · intro h
    subst h
    exact ⟨_, rfl, rfl⟩
  · intro h hw hh
    cases imageData with
    | nil => exact absurd rfl h
    | cons p ps =>
      have hn : ¬ (imageSize.width ≤ 0 ∨ imageSize.height ≤ 0) := by omega
      simp only [showImage, List.isEmpty_cons, Bool.not_false, if_true, hn, if_false, bind,
        Except.bind]
      exact ⟨_, rfl, rfl, rfl⟩

theorem showImage_future_witness :
    exampleScanningRenderer.m_imageExtremaFuture = some { imageData := [1, 2] } ∧
      (∃ r', showImage [] (QSize.mk 0 0) false exampleScanningRenderer = .ok r' ∧
        r'.m_imageExtremaFuture = none) ∧
      ([9, 8, 7] : ImageData) ≠ [] ∧ 0 < (QSize.mk 3 1).width ∧ 0 < (QSize.mk 3 1).height ∧
      ∃ r', showImage [9, 8, 7] (QSize.mk 3 1) false exampleScanningRenderer = .ok r' ∧
        r'.m_imageExtremaFuture = some { imageData := [9, 8, 7] } ∧
        r'.m_imageExtremaFuture.map ExtremaFuture.get = some (findImageExtrema [9, 8, 7]) :=
  ⟨by decide,
    (showImage_future [] (QSize.mk 0 0) false exampleScanningRenderer).1 rfl,
    by decide, by decide, by decide,
    (showImage_future [9, 8, 7] (QSize.mk 3 1) false exampleScanningRenderer).2
      (by decide) (by decide) (by decide)⟩

/-! ## Lemmas on the cached image buffer -/

theorem execHistoCalcCreate_state_image (r : Renderer) :
    (Outcome.state (execHistoCalcCreate r)).m_imageData = r.m_imageData ∧
      (Outcome.state (execHistoCalcCreate r)).m_imageSize = r.m_imageSize ∧
      (Outcome.state (execHistoCalcCreate r)).m_image = r.m_image := by
  unfold execHistoCalcCreate
  simp only
  split
  · exact ⟨rfl, rfl, rfl⟩
  · split
    · exact ⟨rfl, rfl, rfl⟩
    · split
      · exact ⟨rfl, rfl, rfl⟩
      · split <;> exact ⟨rfl, rfl, rfl⟩

theorem execHistoCalc_state_image (r : Renderer) :
    (Outcome.state (execHistoCalc r)).m_imageData = r.m_imageData ∧
      (Outcome.state (execHistoCalc r)).m_imageSize = r.m_imageSize ∧
      (Outcome.state (execHistoCalc r)).m_image = r.m_image := by
  have key : ∀ r1 : Renderer,
      (Outcome.state (execHistoCalcPass r1)).m_imageData = r1.m_imageData ∧
        (Outcome.state (execHistoCalcPass r1)).m_imageSize = r1.m_imageSize ∧
        (Outcome.state (execHistoCalcPass r1)).m_image = r1.m_image := by
    intro r1
    rcases execHistoCalcPass_state r1 with h | h <;> rw [h] <;> exact ⟨rfl, rfl, rfl⟩
  unfold execHistoCalc
  simp only [bind, Except.bind]
  by_cases hgl : r.m_histogramGlBuffer = none
  · rw [if_pos hgl]
    have hc := execHistoCalcCreate_state_image r
    cases hcr : execHistoCalcCreate r with
    | error e =>
      rw [hcr] at hc
      exact hc
    | ok r1 =>
      rw [hcr] at hc
      simp only [Outcome.state] at hc
      obtain ⟨k1, k2, k3⟩ := key r1
      exact ⟨by rw [← hc.1]; exact k1, by rw [← hc.2.1]; exact k2, by rw [← hc.2.2]; exact k3⟩
  · rw [if_neg hgl]
    exact key r

theorem newImageSlotUpload_state_image (imageData : ImageData) (imageSize : QSize)
    (filter : Bool) (r : Renderer) :
    (Outcome.state (newImageSlotUpload imageData imageSize filter r)).m_imageData = imageData ∧
      (Outcome.state (newImageSlotUpload imageData imageSize filter r)).m_imageSize
        = imageSize ∧
      ∃ image, (Outcome.state (newImageSlotUpload imageData imageSize filter r)).m_image
          = some image ∧ image.created = true := by
  unfold newImageSlotUpload
  cases hi : r.m_image with
  | none =>
    simp only
    cases hc : r.m_openClContext with
    | none => exact ⟨rfl, rfl, _, rfl, rfl⟩
    | some context => exact ⟨rfl, rfl, _, rfl, rfl⟩
  | some old =>
    by_cases hcr : old.created = true
    · simp only [hcr, if_true, hi]
      cases hc : r.m_openClContext with
      | none => exact ⟨rfl, rfl, _, rfl, rfl⟩
      | some context => exact ⟨rfl, rfl, _, rfl, rfl⟩
    · simp only [hcr, if_false]
      cases hc : r.m_openClContext with
      | none => exact ⟨rfl, rfl, _, rfl, rfl⟩
      | some context => exact ⟨rfl, rfl, _, rfl, rfl⟩

theorem newImageSlot_state_image (imageData : ImageData) (imageSize : QSize) (filter : Bool)
    (r : Renderer) (hacc : imageData = [] ∨ (0 < imageSize.width ∧ 0 < imageSize.height))
    (hinv : r.imageBufferConsistent) :
    (Outcome.state (newImageSlot imageData imageSize filter r)).imageBufferConsistent ∧
      (imageData = [] →
        (Outcome.state (newImageSlot imageData imageSize filter r)).m_imageData = [] ∧
        (Outcome.state (newImageSlot imageData imageSize filter r)).m_imageSize
          = QSize.mk 0 0) ∧
      (imageData ≠ [] →
        (Outcome.state (newImageSlot imageData imageSize filter r)).m_imageData = imageData ∧
        (Outcome.state (newImageSlot imageData imageSize filter r)).m_imageSize
          = imageSize) := by
  obtain ⟨hiff, hempty, htex⟩ := hinv
  cases imageData with
  | nil =>
    have hstate : (Outcome.state (newImageSlot [] imageSize filter r)).m_imageData = [] ∧
        (Outcome.state (newImageSlot [] imageSize filter r)).m_imageSize = QSize.mk 0 0 := by
      unfold newImageSlot
      cases hd : r.m_imageData with
      | nil =>
        simp only [bind, Except.bind, hd, List.isEmpty_nil, Bool.not_true, Bool.false_and,
          Bool.false_eq_true, if_false, Outcome.state, execHistoDraw, execImageDraw]
        exact ⟨trivial, hempty hd⟩
      | cons p ps =>
        obtain ⟨image, himage, hcreated⟩ := htex (by rw [hd]; simp)
        simp [bind, Except.bind, hd, Outcome.state, execHistoDraw, execImageDraw, delImage,
          delHistogramBlocks, himage, hcreated]
    refine ⟨⟨?_, ?_, ?_⟩, fun _ => hstate, fun h => absurd rfl h⟩
    · rw [hstate.1, hstate.2]
      simp
    · intro _
      exact hstate.2
    · intro h
      exact absurd hstate.1 h
  | cons p ps =>
    have hpos : 0 < imageSize.width ∧ 0 < imageSize.height := by
      rcases hacc with h | h
      · exact absurd h (by simp)
      · exact h
    have hstate : (Outcome.state (newImageSlot (p :: ps) imageSize filter r)).m_imageData
          = p :: ps ∧
        (Outcome.state (newImageSlot (p :: ps) imageSize filter r)).m_imageSize = imageSize ∧
        ∃ image, (Outcome.state (newImageSlot (p :: ps) imageSize filter r)).m_image
          = some image ∧ image.created = true := by
      unfold newImageSlot
      simp only [bind, Except.bind, List.isEmpty_cons, Bool.not_false, if_true, Bool.false_or]
      generalize (if (!r.m_imageData.isEmpty && r.m_imageSize != imageSize) = true
        then delHistogramBlocks (delImage r) else r) = r1
      have hu := newImageSlotUpload_state_image (p :: ps) imageSize filter r1
      cases hup : newImageSlotUpload (p :: ps) imageSize filter r1 with
      | error e =>
        rw [hup] at hu
        exact hu
      | ok r2 =>
        rw [hup] at hu
        simp only [Outcome.state] at hu
        have hc := execHistoCalc_state_image r2
        cases hcalc : execHistoCalc r2 with
        | error e =>
          rw [hcalc] at hc
          simp only [hcalc]
          obtain ⟨c1, c2, c3⟩ := hc
          exact ⟨c1.trans hu.1, c2.trans hu.2.1, by rw [c3]; exact hu.2.2⟩
        | ok r3 =>
          rw [hcalc] at hc
          simp only [Outcome.state] at hc
          simp only [hcalc, Outcome.state, execHistoDraw, execImageDraw]
          obtain ⟨c1, c2, c3⟩ := hc
          exact ⟨c1.trans hu.1, c2.trans hu.2.1, by rw [c3]; exact hu.2.2⟩
    refine ⟨⟨?_, ?_, ?_⟩, fun h => absurd h (by simp), fun _ => ⟨hstate.1, hstate.2.1⟩⟩
    · rw [hstate.1, hstate.2.1]
      simp [hpos]
    · intro h
      rw [hstate.1] at h
      exact absurd h (by simp)
    · intro _
      exact hstate.2.2

theorem refreshOpenClDeviceListSlot_cases (platforms : List ClPlatform) (r : Renderer) :
    (platforms = [] ∧
        refreshOpenClDeviceListSlot platforms r = .error (.thrown .noPlatformAvailable, r)) ∨
      (platforms ≠ [] ∧
        (platforms.map (fun platform =>
          platform.devices.map (deviceListEntry platform))).flatten = r.m_openClDeviceList ∧
        refreshOpenClDeviceListSlot platforms r = .ok r) ∨
      (platforms ≠ [] ∧
        (platforms.map (fun platform =>
          platform.devices.map (deviceListEntry platform))).flatten ≠ r.m_openClDeviceList ∧
        refreshOpenClDeviceListSlot platforms r = .ok { r with
          m_openClDeviceList := (platforms.map (fun platform =>
            platform.devices.map (deviceListEntry platform))).flatten
          emitted := r.emitted ++
            [Signal.openClDeviceListChanged
              ((platforms.map (fun platform =>
                platform.devices.map (deviceListEntry platform))).flatten.map
                  (fun entry => entry.description))] }) := by
  cases platforms with
  | nil => left; exact ⟨rfl, rfl⟩
  | cons p ps =>
    right
    by_cases h : (List.map (fun platform => List.map (deviceListEntry platform) platform.devices)
        (p :: ps)).flatten = r.m_openClDeviceList
    · left
      refine ⟨by simp, h, ?_⟩
      unfold refreshOpenClDeviceListSlot
      simp only [List.isEmpty_cons, Bool.false_eq_true, if_false, ne_eq, h, not_true_eq_false]
    · right
      refine ⟨by simp, h, ?_⟩
      unfold refreshOpenClDeviceListSlot
      simp only [List.isEmpty_cons, Bool.false_eq_true, if_false, ne_eq, h, not_false_eq_true,
        if_true]

theorem makeClContext_state_image (platforms : List ClPlatform) (r : Renderer) :
    (Outcome.state (makeClContext platforms r)).m_imageData = r.m_imageData ∧
      (Outcome.state (makeClContext platforms r)).m_imageSize = r.m_imageSize ∧
      (Outcome.state (makeClContext platforms r)).m_image = r.m_image := by
  unfold makeClContext
  simp only [bind, Except.bind]
  rcases refreshOpenClDeviceListSlot_cases platforms r with ⟨_, h⟩ | ⟨_, _, h⟩ | ⟨_, _, h⟩
  · rw [h]
    exact ⟨rfl, rfl, rfl⟩
  · rw [h]
    simp only
    split
    · exact ⟨rfl, rfl, rfl⟩
    · split <;> exact ⟨rfl, rfl, rfl⟩
  · rw [h]
    simp only
    split
    · exact ⟨rfl, rfl, rfl⟩
    · split <;> exact ⟨rfl, rfl, rfl⟩

theorem buildClProgs_state (r : Renderer) :
    Outcome.state (buildClProgs r) = r ∨
      ∃ context, r.m_openClContext = some context ∧
        Outcome.state (buildClProgs r) = { r with
          m_histoBlocksKern := some { name := "computeBlocks", context := context.serial }
          m_histoReduceKern := some { name := "reduceBlocks", context := context.serial } } := by
  unfold buildClProgs
  cases hc : r.m_openClContext with
  | none => exact Or.inl rfl
  | some context =>
    cases hd : r.m_openClDevice with
    | none => exact Or.inl rfl
    | some device => exact Or.inr ⟨context, rfl, rfl⟩

theorem threadInitSlot_state_image (platforms : List ClPlatform) (r : Renderer) :
    (Outcome.state (threadInitSlot platforms r)).m_imageData = r.m_imageData ∧
      (Outcome.state (threadInitSlot platforms r)).m_imageSize = r.m_imageSize ∧
      (Outcome.state (threadInitSlot platforms r)).m_image = r.m_image := by
  unfold threadInitSlot
  by_cases hinit : r.m_threadInited = true
  · rw [if_pos hinit]
    exact ⟨rfl, rfl, rfl⟩
  · rw [if_neg hinit]
    have h := makeClContext_state_image platforms
      (makeGlContexts { r with m_threadInited := true })
    simp only [bind, Except.bind]
    cases hm : makeClContext platforms (makeGlContexts { r with m_threadInited := true }) with
    | error e =>
      rw [hm] at h
      exact h
    | ok r1 =>
      rw [hm] at h
      simp only [Outcome.state] at h
      simp only
      rcases buildClProgs_state r1 with hb | ⟨context, _, hb⟩ <;> rw [hb] <;>
        exact ⟨h.1, h.2.1, h.2.2⟩

theorem makeClContext_ok (platforms : List ClPlatform) (r r' : Renderer)
    (h : makeClContext platforms r = .ok r') :
    r'.m_openClDevice ≠ none ∧ r'.m_openClContext ≠ none ∧ r'.m_openClCq ≠ none := by
  unfold makeClContext at h
  simp only [bind, Except.bind] at h
  cases hr : refreshOpenClDeviceListSlot platforms r with
  | error e => rw [hr] at h; simp at h
  | ok r1 =>
    rw [hr] at h
    simp only at h
    split at h
    · simp at h
    · split at h
      · simp at h
      · injection h with h
        subst h
        simp

theorem threadInitSlot_ok (platforms : List ClPlatform) (r r' : Renderer)
    (h : threadInitSlot platforms r = .ok r') :
    r'.m_openClContext ≠ none ∧ r'.m_openClCq ≠ none ∧ r'.m_histoBlocksKern ≠ none ∧
      r'.m_histoReduceKern ≠ none := by
  unfold threadInitSlot at h
  split at h
  · simp at h
  · simp only [bind, Except.bind] at h
    cases hm : makeClContext platforms (makeGlContexts { r with m_threadInited := true }) with
    | error e => rw [hm] at h; simp at h
    | ok r1 =>
      rw [hm] at h
      simp only at h
      obtain ⟨_, hc, hq⟩ := makeClContext_ok _ _ _ hm
      unfold buildClProgs at h
      split at h
      · simp at h
      · split at h
        · simp at h
        · injection h with h
          subst h
          simp [*]

theorem threadInitSlot_imageBufferConsistent (platforms : List ClPlatform) :
    (Outcome.state (threadInitSlot platforms Renderer.constructed)).imageBufferConsistent := by
  have h := makeClContext_state_image platforms
    (makeGlContexts { Renderer.constructed with m_threadInited := true })
  have hstate := threadInitSlot_state_image platforms Renderer.constructed
  obtain ⟨h1, h2, _⟩ := hstate
  unfold Renderer.imageBufferConsistent
  rw [h1, h2]
  exact ⟨by decide, fun _ => rfl, fun h => absurd rfl h⟩

theorem processNewImages_imageBufferConsistent (requests : List NewImageRequest)
    (r : Renderer) (hacc : ∀ request ∈ requests, request.accepted)
    (hinv : r.imageBufferConsistent) :
    (Outcome.state (processNewImages requests r)).imageBufferConsistent := by
  induction requests generalizing r with
  | nil => exact hinv
  | cons request rest ih =>
    have hstep := (newImageSlot_state_image request.imageData request.imageSize
      request.filter r (hacc request (List.mem_cons_self _ _)) hinv).1
    simp only [processNewImages, bind, Except.bind]
    cases hslot : newImageSlot request.imageData request.imageSize request.filter r with
    | error e =>
      rw [hslot] at hstep
      exact hstep
    | ok r1 =>
      rw [hslot] at hstep
      exact ih r1 (fun q hq => hacc q (List.mem_cons_of_mem _ hq)) hstep

/-! ## Claim on the cached image buffer -/

/-- C15: starting from the constructor's state and thread initialisation on
any host, for every sequence of requests that `showImage` accepts, delivered
in order to `newImageSlot`: in the state the delivery leaves (whether every
call completed or one stopped), the cached data is non-empty exactly when
the cached width and height are both positive; and whenever the earlier
requests completed, the state the last request leaves has empty cached data
and cached size `(0, 0)` if its data is empty, and has that request's data
and size cached if its data is non-empty. -/
theorem processNewImages_imageBuffer (platforms : List ClPlatform)
    (requests : List NewImageRequest) (request : NewImageRequest)
    (hacc : ∀ q ∈ requests ++ [request], q.accepted) :
    ((Outcome.state (processNewImages (requests ++ [request])
          (Outcome.state (threadInitSlot platforms Renderer.constructed)))).m_imageData ≠ [] ↔
        (0 < (Outcome.state (processNewImages (requests ++ [request])
            (Outcome.state (threadInitSlot platforms Renderer.constructed)))).m_imageSize.width ∧
          0 < (Outcome.state (processNewImages (requests ++ [request])
            (Outcome.state (threadInitSlot platforms
              Renderer.constructed)))).m_imageSize.height)) ∧
      ∀ r, processNewImages requests
          (Outcome.state (threadInitSlot platforms Renderer.constructed)) = .ok r →
        (request.imageData = [] →
          (Outcome.state (newImageSlot request.imageData request.imageSize request.filter
            r)).m_imageData = [] ∧
          (Outcome.state (newImageSlot request.imageData request.imageSize request.filter
            r)).m_imageSize = QSize.mk 0 0) ∧
        (request.imageData ≠ [] →
          (Outcome.state (newImageSlot request.imageData request.imageSize request.filter
            r)).m_imageData = request.imageData ∧
          (Outcome.state (newImageSlot request.imageData request.imageSize request.filter
            r)).m_imageSize = request.imageSize) := by
  have h0 := threadInitSlot_imageBufferConsistent platforms
  refine ⟨(processNewImages_imageBufferConsistent _ _ hacc h0).1, ?_⟩
  intro r hr
  have hinv : r.imageBufferConsistent := by
    have := processNewImages_imageBufferConsistent requests _
      (fun q hq => hacc q (List.mem_append_left _ hq)) h0
    rw [hr] at this
    exact this
  have hlast := newImageSlot_state_image request.imageData request.imageSize request.filter r
    (hacc request (List.mem_append_right _ (List.mem_singleton_self _))) hinv
  exact ⟨hlast.2.1, hlast.2.2⟩

theorem processNewImages_imageBuffer_witness :
    (∀ q ∈ [NewImageRequest.mk [1, 2] (QSize.mk 2 1) false] ++
        [NewImageRequest.mk [] (QSize.mk 5 5) false], q.accepted) ∧
      processNewImages [NewImageRequest.mk [1, 2] (QSize.mk 2 1) false]
          (Outcome.state (threadInitSlot exampleGpuHost Renderer.constructed))
        = .ok exampleLiveRenderer ∧
      exampleLiveRenderer.m_imageData = [1, 2] ∧
      exampleLiveRenderer.m_imageSize = QSize.mk 2 1 ∧
      (Outcome.state (newImageSlot [] (QSize.mk 5 5) false exampleLiveRenderer)).m_imageData
        = [] ∧
      (Outcome.state (newImageSlot [] (QSize.mk 5 5) false exampleLiveRenderer)).m_imageSize
        = QSize.mk 0 0 :=
  ⟨by simp [NewImageRequest.accepted], rfl, by decide, by decide,
    ((processNewImages_imageBuffer exampleGpuHost
      [NewImageRequest.mk [1, 2] (QSize.mk 2 1) false]
      (NewImageRequest.mk [] (QSize.mk 5 5) false)
      (by simp [NewImageRequest.accepted])).2 exampleLiveRenderer rfl).1 rfl⟩

/-! ## Claims on the device list refresh and the default device -/

/-- C16: for every state and every enumeration with at least one platform
(the case without platforms is C17): if the entries built from the enumeration
equal the stored list, the call completes and leaves the state as it was (no
signal, same list); if they differ, the call completes, the stored list is
the new one, and the emitted signals are the earlier ones followed by exactly
one `openClDeviceListChanged` carrying the new descriptions in list order. -/
theorem refreshOpenClDeviceListSlot_notifies_iff_changed (platforms : List ClPlatform)
    (r : Renderer) (hne : platforms ≠ []) :
    (enumerateOpenClDevices platforms = r.m_openClDeviceList →
        refreshOpenClDeviceListSlot platforms r = .ok r) ∧
      (enumerateOpenClDevices platforms ≠ r.m_openClDeviceList →
        ∃ r', refreshOpenClDeviceListSlot platforms r = .ok r' ∧
          r'.m_openClDeviceList = enumerateOpenClDevices platforms ∧
          r'.emitted = r.emitted ++
            [Signal.openClDeviceListChanged
              ((enumerateOpenClDevices platforms).map (fun entry => entry.description))] ∧
          r'.m_currOpenClDeviceListEntry = r.m_currOpenClDeviceListEntry) := by
  unfold enumerateOpenClDevices
  rcases refreshOpenClDeviceListSlot_cases platforms r with ⟨h, _⟩ | ⟨_, heq, h⟩ | ⟨_, hd, h⟩
  · exact absurd h hne
  · exact ⟨fun _ => h, fun hd => absurd heq hd⟩
  · exact ⟨fun heq => absurd heq hd, fun _ => ⟨_, h, rfl, rfl, rfl⟩⟩

theorem refreshOpenClDeviceListSlot_notifies_iff_changed_witness :
    exampleGpuHost ≠ [] ∧ exampleCpuHost ≠ [] ∧
      enumerateOpenClDevices exampleGpuHost = exampleInitRenderer.m_openClDeviceList ∧
      refreshOpenClDeviceListSlot exampleGpuHost exampleInitRenderer = .ok exampleInitRenderer ∧
      enumerateOpenClDevices exampleCpuHost ≠ exampleInitRenderer.m_openClDeviceList ∧
      ∃ r', refreshOpenClDeviceListSlot exampleCpuHost exampleInitRenderer = .ok r' ∧
        r'.m_openClDeviceList = enumerateOpenClDevices exampleCpuHost ∧
        r'.emitted = exampleInitRenderer.emitted ++
          [Signal.openClDeviceListChanged
            ((enumerateOpenClDevices exampleCpuHost).map (fun entry => entry.description))] ∧
        r'.m_currOpenClDeviceListEntry = exampleInitRenderer.m_currOpenClDeviceListEntry :=
  ⟨by decide, by decide, by decide,
    (refreshOpenClDeviceListSlot_notifies_iff_changed exampleGpuHost exampleInitRenderer
      (by decide)).1 (by decide),
    by decide,
    (refreshOpenClDeviceListSlot_notifies_iff_changed exampleCpuHost exampleInitRenderer
      (by decide)).2 (by decide)⟩

/-- C17: for every state, a refresh whose enumeration finds no platform
throws the no-platform exception and leaves the state as it was: the stored
device list is unchanged and no signal is emitted. -/
theorem refreshOpenClDeviceListSlot_no_platform (r : Renderer) :
    refreshOpenClDeviceListSlot [] r
        = .error (Fault.thrown RisWidgetException.noPlatformAvailable, r) ∧
      (Outcome.state (refreshOpenClDeviceListSlot [] r)).m_openClDeviceList
        = r.m_openClDeviceList ∧
      (Outcome.state (refreshOpenClDeviceListSlot [] r)).emitted = r.emitted :=
  ⟨rfl, rfl, rfl⟩

theorem makeClContextIndex_nonempty (l : List OpenClDeviceListEntry) (hne : l ≠ []) :
    ∃ index, makeClContextIndex l = some index ∧ 0 ≤ index := by
  unfold makeClContextIndex
  rcases makeClContextLoop_cases (fun entry => entry.type &&& CL_DEVICE_TYPE_GPU != 0) l (-1) 0
    with ⟨h1, _⟩ | ⟨k, _, h1⟩
  · simp only [h1, if_true]
    rcases makeClContextLoop_cases (fun entry => entry.type &&& CL_DEVICE_TYPE_ACCELERATOR != 0)
      l (-1) (0 + l.length) with ⟨h2, _⟩ | ⟨k, _, h2⟩
    · simp only [h2, if_true]
      rcases makeClContextLoop_cases (fun entry => entry.type &&& CL_DEVICE_TYPE_CPU == 0)
        l (-1) (0 + l.length + l.length) with ⟨h3, hall3⟩ | ⟨k, _, h3⟩
      · simp only [h3, if_true]
        rcases makeClContextLoop_cases (fun entry => entry.type &&& CL_DEVICE_TYPE_CPU != 0)
          l (-1) (0 + l.length + l.length + l.length) with ⟨_, hall4⟩ | ⟨k, _, h4⟩
        · exfalso
          cases l with
          | nil => exact hne rfl
          | cons e es =>
            have a := hall3 e (List.mem_cons_self _ _)
            have b := hall4 e (List.mem_cons_self _ _)
            simp at a b
            exact a b
        · simp only [h4]
          have hk' : (0 : Int) + l.length + l.length + l.length + k ≠ -1 := by omega
          rw [if_neg hk']
          exact ⟨_, rfl, by omega⟩
      · simp only [h3]
        have hk' : (0 : Int) + l.length + l.length + k ≠ -1 := by omega
        rw [if_neg hk']
        exact ⟨_, rfl, by omega⟩
    · simp only [h2]
      have hk' : (0 : Int) + l.length + k ≠ -1 := by omega
      rw [if_neg hk']
      exact ⟨_, rfl, by omega⟩
  · simp only [h1]
    have hk' : (0 : Int) + k ≠ -1 := by omega
    rw [if_neg hk']
    exact ⟨_, rfl, by omega⟩

/-- C18: the device ranking of `makeClContext` ends in the throw of "No OpenCL
device available." exactly when the device list is empty; and for every
enumeration and state, `makeClContext` stops with that exception exactly when
there is a platform and the refreshed device list is empty. -/
theorem makeClContext_no_device_iff_empty :
    (∀ l : List OpenClDeviceListEntry, makeClContextIndex l = none ↔ l = []) ∧
      (∀ (platforms : List ClPlatform) (r : Renderer),
        Outcome.fault (makeClContext platforms r)
            = some (Fault.thrown RisWidgetException.noDeviceAvailable) ↔
          platforms ≠ [] ∧ enumerateOpenClDevices platforms = []) := by
  have hidx : ∀ l : List OpenClDeviceListEntry, makeClContextIndex l = none ↔ l = [] := by
    intro l
    constructor
    · intro h
      by_contra hne
      obtain ⟨index, hi, _⟩ := makeClContextIndex_nonempty l hne
      rw [h] at hi
      exact absurd hi (by simp)
    · rintro rfl
      rfl
  refine ⟨hidx, ?_⟩
  intro platforms r
  have key : ∀ r1 : Renderer,
      Outcome.fault (match makeClContextIndex r1.m_openClDeviceList with
        | none => (.error (.thrown .noDeviceAvailable, r1) : Outcome)
        | some index =>
          match (if index < 0 then none else r1.m_openClDeviceList[index.toNat]?) with
          | none =>
            .error (.deviceListIndexOutOfBounds index r1.m_openClDeviceList.length, r1)
          | some entry =>
            .ok { r1 with
              m_openClDevice := some entry.device
              m_openClContext := some
                { serial := r1.nextSerial, platform := entry.platform, device := entry.device,
                  glInterop := true }
              m_openClCq := some { context := r1.nextSerial, device := entry.device }
              nextSerial := r1.nextSerial + 1
              m_currOpenClDeviceListEntry := index
              emitted := r1.emitted ++ [Signal.currentOpenClDeviceListIndexChanged index] })
        = some (Fault.thrown RisWidgetException.noDeviceAvailable) ↔
      r1.m_openClDeviceList = [] := by
    intro r1
    rw [← hidx]
    cases hm : makeClContextIndex r1.m_openClDeviceList with
    | none => simp [Outcome.fault]
    | some index =>
      simp only
      split <;> simp [Outcome.fault]
  unfold makeClContext enumerateOpenClDevices
  simp only [bind, Except.bind]
  rcases refreshOpenClDeviceListSlot_cases platforms r with ⟨hp, h⟩ | hok
  · rw [h]
    simp [Outcome.fault, hp]
  · obtain ⟨hp, r1, hr1, hlist⟩ : platforms ≠ [] ∧ ∃ r1,
        refreshOpenClDeviceListSlot platforms r = .ok r1 ∧
        r1.m_openClDeviceList = (platforms.map (fun platform =>
          platform.devices.map (deviceListEntry platform))).flatten := by
      rcases hok with ⟨hp, heq, h⟩ | ⟨hp, _, h⟩
      · exact ⟨hp, r, h, heq.symm⟩
      · exact ⟨hp, _, h, rfl⟩
    rw [hr1]
    simp only
    rw [key r1, hlist]
    simp [hp]

/-! ## Claims on the events of a histogram compute pass -/

/-- C19 (counterexample): in a pass that does not create the buffers, the
completion event of the `computeBlocks` kernel (event 3) is in the wait list
of two enqueued operations, the copy to the GL-shared buffer and the read into
the cache: the same `waits` vector is passed to both. -/
theorem execHistoCalc_kernel_event_waited_twice :
    completionEvent .computeBlocks (execHistoCalcActions false) = some 3 ∧
      dependants 3 (execHistoCalcActions false)
        = [ClCommand.copyToGlBuffer, ClCommand.readToHistogramData] := by
  decide

/-- C19 (amended): in every pass, with or without the creation block, every
event in a wait list is an assigned event and is the one its source variable
refers to when the command is enqueued, that is the one produced by the most
recent enqueue that wrote that variable; the completion event of the
`computeBlocks` kernel is a dependency of exactly two operations (the copy to
the GL-shared buffer and the read into the cache), and every other event is a
dependency of at most one enqueued operation. -/
theorem execHistoCalc_wait_lists_current (create : Bool) :
    waitListsCurrent (fun _ => none) (execHistoCalcActions create) = true ∧
      ∀ event ∈ enqueuedEvents (execHistoCalcActions create),
        if completionEvent .computeBlocks (execHistoCalcActions create) = some event
        then dependants event (execHistoCalcActions create)
          = [ClCommand.copyToGlBuffer, ClCommand.readToHistogramData]
        else (dependants event (execHistoCalcActions create)).length ≤ 1 := by
  cases create <;> decide

/-- C20: in every pass, with or without the creation block: `glFinish` is
called with the image view current and with the histogram view current
before the shared objects are acquired; the kernel dispatch waits on the
acquire and on the unmap that follows the zeroing of the blocks buffer; the
copy to the GL-shared buffer and the read into the cache both wait on the
kernel; the release waits on both of them; and the last action of the pass
is the host waiting on the completion event of the release. -/
theorem execHistoCalc_acquire_release_bracketing (create : Bool) :
    (execHistoCalcActions create).indexOf (HostAction.glFinish .imageView)
        < enqueuePosition .acquireGLObjects (execHistoCalcActions create) ∧
      (execHistoCalcActions create).indexOf (HostAction.glFinish .histogramView)
        < enqueuePosition .acquireGLObjects (execHistoCalcActions create) ∧
      waitsOn .computeBlocks .acquireGLObjects (execHistoCalcActions create) = true ∧
      (execHistoCalcActions create).indexOf (HostAction.hostWrite .blocks)
        < enqueuePosition .unmapBlocks (execHistoCalcActions create) ∧
      waitsOn .computeBlocks .unmapBlocks (execHistoCalcActions create) = true ∧
      waitsOn .copyToGlBuffer .computeBlocks (execHistoCalcActions create) = true ∧
      waitsOn .readToHistogramData .computeBlocks (execHistoCalcActions create) = true ∧
      waitsOn .releaseGLObjects .copyToGlBuffer (execHistoCalcActions create) = true ∧
      waitsOn .releaseGLObjects .readToHistogramData (execHistoCalcActions create) = true ∧
      (completionEvent .releaseGLObjects (execHistoCalcActions create)).isSome = true ∧
      (execHistoCalcActions create).getLast?
        = some (HostAction.wait .e0
            (completionEvent .releaseGLObjects (execHistoCalcActions create))) := by
  cases create <;> decide

/-! ## The returned max of the extrema scan -/

theorem findImageExtrema_foldl_snd_reaches (M : Nat) (l : ImageData) (ret : Nat × Nat)
    (hM : M ∈ l ∨ ret.2 = M) (hfirst : ret.1 ≤ M) (hsecond : ret.2 ≤ M)
    (hall : ∀ q ∈ l, q ≤ M) :
    (l.foldl findImageExtremaStep ret).2 = M := by
  induction l generalizing ret with
  | nil =>
    rcases hM with h | h
    · simp at h
    · exact h
  | cons q qs ih =>
    simp only [List.foldl_cons]
    have hq : q ≤ M := hall q (List.mem_cons_self _ _)
    have hqs : ∀ x ∈ qs, x ≤ M := fun x hx => hall x (List.mem_cons_of_mem _ hx)
    unfold findImageExtremaStep
    by_cases h1 : q < ret.1
    · rw [if_pos h1]
      refine ih (q, ret.2) ?_ hq hsecond hqs
      rcases hM with h | h
      · rcases List.mem_cons.mp h with h' | h'
        · omega
        · exact Or.inl h'
      · exact Or.inr h
    · rw [if_neg h1]
      by_cases h2 : q > ret.2
      · rw [if_pos h2]
        refine ih (ret.1, q) ?_ hfirst hq hqs
        rcases hM with h | h
        · rcases List.mem_cons.mp h with h' | h'
          · exact Or.inr h'.symm
          · exact Or.inl h'
        · omega
      · rw [if_neg h2]
        refine ih ret ?_ hfirst hsecond hqs
        rcases hM with h | h
        · rcases List.mem_cons.mp h with h' | h'
          · right; omega
          · exact Or.inl h'
        · exact Or.inr h

theorem findImageExtrema_foldl_snd_below (M : Nat) (l : ImageData) (ret : Nat × Nat)
    (hsecond : ret.2 < M) (hall : ∀ q ∈ l, q < M) :
    (l.foldl findImageExtremaStep ret).2 < M := by
  induction l generalizing ret with
  | nil => exact hsecond
  | cons q qs ih =>
    simp only [List.foldl_cons]
    have hq : q < M := hall q (List.mem_cons_self _ _)
    have hqs : ∀ x ∈ qs, x < M := fun x hx => hall x (List.mem_cons_of_mem _ hx)
    unfold findImageExtremaStep
    split_ifs
    · exact ih _ hsecond hqs
    · exact ih _ hq hqs
    · exact ih _ hsecond hqs

/-- C28: for every image of 16-bit samples with at least two pixels (a first
pixel `p` and a non-empty rest) and its true maximum `M`: the returned max
equals `M` exactly when `M` occurs at a position other than the first or is
65535; and when `M` occurs only at the first pixel and is below 65535, the
returned max is strictly smaller than `M`. -/
theorem findImageExtrema_max_exact_iff (p : Nat) (rest : ImageData) (M : Nat)
    (hrest : rest ≠ []) (h16 : isGLushortData (p :: rest))
    (hmem : M ∈ p :: rest) (hmax : ∀ q ∈ p :: rest, q ≤ M) :
    ((findImageExtrema (p :: rest)).2 = M ↔ (M ∈ rest ∨ M = 65535)) ∧
      (M ∉ rest → M < 65535 → (findImageExtrema (p :: rest)).2 < M) := by
  have hlen : (p :: rest).length ≠ 1 := by
    cases rest with
    | nil => exact absurd rfl hrest
    | cons _ _ => simp
  have hp16 : p < 65536 := h16 p (List.mem_cons_self _ _)
  have hpM : p ≤ M := hmax p (List.mem_cons_self _ _)
  have hM16 : M < 65536 := h16 M hmem
  have hrestM : ∀ q ∈ rest, q ≤ M := fun q hq => hmax q (List.mem_cons_of_mem _ hq)
  have hunfold : (findImageExtrema (p :: rest)).2
      = (rest.foldl findImageExtremaStep (findImageExtremaStep (65535, 0) p)).2 := by
    unfold findImageExtrema
    rw [if_neg hlen]
    rfl
  have hstrict : M ∉ rest → M < 65535 → (findImageExtrema (p :: rest)).2 < M := by
    intro hnot hlt
    have hpeq : p = M := by
      rcases List.mem_cons.mp hmem with h | h
      · exact h.symm
      · exact absurd h hnot
    have hbelow : ∀ q ∈ rest, q < M := by
      intro q hq
      have := hrestM q hq
      have hne : q ≠ M := fun h => hnot (h ▸ hq)
      omega
    have hpos : 0 < M := by
      cases rest with
      | nil => exact absurd rfl hrest
      | cons q qs =>
        have := hbelow q (List.mem_cons_self _ _)
        omega
    rw [hunfold]
    have hstep : findImageExtremaStep (65535, 0) p = (p, 0) := by
      unfold findImageExtremaStep
      have : p < 65535 := by omega
      simp [this]
    rw [hstep]
    exact findImageExtrema_foldl_snd_below M rest (p, 0) hpos hbelow
  refine ⟨⟨?_, ?_⟩, hstrict⟩
  · intro heq
    by_contra hcon
    push_neg at hcon
    have hlt : M < 65535 := by omega
    have := hstrict hcon.1 hlt
    omega
  · intro h
    rw [hunfold]
    by_cases hp : p < 65535
    · have hstep : findImageExtremaStep (65535, 0) p = (p, 0) := by
        unfold findImageExtremaStep
        simp [hp]
      rw [hstep]
      have hin : M ∈ rest := by
        rcases h with h | h
        · exact h
        · rcases List.mem_cons.mp hmem with h' | h'
          · omega
          · exact h'
      exact findImageExtrema_foldl_snd_reaches M rest (p, 0) (Or.inl hin) hpM (Nat.zero_le _)
        hrestM
    · have hpe : p = 65535 := by omega
      have hMe : M = 65535 := by omega
      have hstep : findImageExtremaStep (65535, 0) p = (65535, 65535) := by
        unfold findImageExtremaStep
        simp [hpe]
      rw [hstep]
      exact findImageExtrema_foldl_snd_reaches M rest (65535, 65535) (Or.inr hMe.symm)
        (by simp only; omega) (by simp only; omega) hrestM

theorem findImageExtrema_max_exact_iff_witness :
    ([3, 4] : ImageData) ≠ [] ∧ isGLushortData (5 :: [3, 4]) ∧ 5 ∈ (5 :: [3, 4] : ImageData) ∧
      (∀ q ∈ (5 :: [3, 4] : ImageData), q ≤ 5) ∧
      ((findImageExtrema (5 :: [3, 4])).2 = 5 ↔ (5 ∈ ([3, 4] : ImageData) ∨ 5 = 65535)) ∧
      (5 ∉ ([3, 4] : ImageData) → 5 < 65535 → (findImageExtrema (5 :: [3, 4])).2 < 5) ∧
      findImageExtrema (5 :: [3, 4]) = (3, 4) :=
  ⟨by decide, by unfold isGLushortData; decide, by decide, by decide,
    (findImageExtrema_max_exact_iff 5 [3, 4] 5 (by decide) (by unfold isGLushortData; decide)
      (by decide) (by decide)).1,
    (findImageExtrema_max_exact_iff 5 [3, 4] 5 (by decide) (by unfold isGLushortData; decide)
      (by decide) (by decide)).2,
    by decide⟩

/-! ## Histogram block padding -/

theorem histoPaddedBlockByteCount_eq (n : Nat) (hn : n + 16 ≤ 4294967296) :
    histoByteCount n = 4 * n ∧
      histoPaddedBlockByteCount n = 64 * ((n + 15) / 16) ∧
      histoBlocksByteCount n = 64 * (64 * ((n + 15) / 16)) := by
  have h1 : histoByteCount n = 4 * n := by
    unfold histoByteCount sizeTModulus
    omega
  have h2 : histoPaddedBlockByteCount n = 64 * ((n + 15) / 16) := by
    unfold histoPaddedBlockByteCount
    rw [h1]
    unfold sizeTModulus
    split_ifs <;> omega
  refine ⟨h1, h2, ?_⟩
  unfold histoBlocksByteCount
  rw [h2]
  unfold sizeTModulus
  omega

/-- C27 (counterexample): for the bin count 4294967295, a valid `GLuint` for
which `4 * n` does not overflow the 64-bit `size_t`, the padded stride is
4294967296 elements and the `static_cast<cl_uint>` uploads it as 0, which is
less than the bin count. -/
theorem execHistoCalcCreate_stride_wraps :
    4 * 4294967295 < sizeTModulus ∧
      histoPaddedBlockByteCount 4294967295 / 4 = 4294967296 ∧
      (Outcome.state (execHistoCalcCreate
          (Outcome.state (setHistogramBinCountSlot 4294967295
            exampleInitRenderer)))).m_histoXxKernArgs.map
        (fun kernArgs => kernArgs.args.paddedBlockSize) = some 0 := by
  decide

/-- C27 (amended): for every state with a compute context, a command queue and
both kernels (what thread initialisation leaves) and every bin count `n` with
`n + 16 <= 2^32` (so that the padded stride fits a `cl_uint`), the creation
block completes, the constants are written, the stride uploaded to the kernel
constants is `16 * ceil(n / 16)` elements, a multiple of 16, at least `n`,
less than `n + 16` and equal to `n` when 16 divides `n`, and the blocks buffer
is exactly 64 times that stride times 4 bytes. -/
theorem execHistoCalcCreate_padding (r : Renderer) (context : ClContext)
    (queue : ClCommandQueue) (blocksKern reduceKern : ClKernel)
    (hcontext : r.m_openClContext = some context)
    (hqueue : r.m_openClCq = some queue)
    (hblocksKern : r.m_histoBlocksKern = some blocksKern)
    (hreduceKern : r.m_histoReduceKern = some reduceKern)
    (hn : r.m_histogramBinCount + 16 ≤ 4294967296) :
    ∃ r' kernArgs blocks, execHistoCalcCreate r = .ok r' ∧
      r'.m_histoXxKernArgs = some kernArgs ∧ r'.m_histogramBlocks = some blocks ∧
      kernArgs.written = true ∧
      kernArgs.args.binCount = r.m_histogramBinCount ∧
      kernArgs.args.paddedBlockSize = 16 * ((r.m_histogramBinCount + 15) / 16) ∧
      16 ∣ kernArgs.args.paddedBlockSize ∧
      r.m_histogramBinCount ≤ kernArgs.args.paddedBlockSize ∧
      kernArgs.args.paddedBlockSize < r.m_histogramBinCount + 16 ∧
      (16 ∣ r.m_histogramBinCount → kernArgs.args.paddedBlockSize = r.m_histogramBinCount) ∧
      blocks.byteCount = 64 * kernArgs.args.paddedBlockSize * 4 := by
  obtain ⟨_, h2, h3⟩ := histoPaddedBlockByteCount_eq r.m_histogramBinCount hn
  have hstride : (histoPaddedBlockByteCount r.m_histogramBinCount / 4) % 4294967296
      = 16 * ((r.m_histogramBinCount + 15) / 16) := by
    rw [h2]
    omega
  unfold execHistoCalcCreate
  simp only [hcontext, hqueue, hblocksKern, hreduceKern, xxBlocksConstArgs]
  refine ⟨_, _, _, rfl, rfl, rfl, rfl, rfl, hstride, ?_, ?_, ?_, ?_, ?_⟩
  · simp only [hstride]
    exact Dvd.intro _ rfl
  · simp only [hstride]
    omega
  · simp only [hstride]
    omega
  · intro hdvd
    simp only [hstride]
    omega
  · simp only [hstride, h3]
    omega

theorem execHistoCalcCreate_padding_witness :
    (Outcome.state (setHistogramBinCountSlot 1000 exampleInitRenderer)).m_openClContext
        = some { serial := 0, platform := 100, device := 101, glInterop := true } ∧
      (Outcome.state (setHistogramBinCountSlot 1000 exampleInitRenderer)).m_histogramBinCount
        = 1000 ∧
      ∃ r' kernArgs blocks,
        execHistoCalcCreate (Outcome.state (setHistogramBinCountSlot 1000 exampleInitRenderer))
          = .ok r' ∧
        r'.m_histoXxKernArgs = some kernArgs ∧ r'.m_histogramBlocks = some blocks ∧
        kernArgs.written = true ∧
        kernArgs.args.binCount
          = (Outcome.state (setHistogramBinCountSlot 1000
              exampleInitRenderer)).m_histogramBinCount ∧
        kernArgs.args.paddedBlockSize
          = 16 * (((Outcome.state (setHistogramBinCountSlot 1000
              exampleInitRenderer)).m_histogramBinCount + 15) / 16) ∧
        16 ∣ kernArgs.args.paddedBlockSize ∧
        (Outcome.state (setHistogramBinCountSlot 1000
            exampleInitRenderer)).m_histogramBinCount ≤ kernArgs.args.paddedBlockSize ∧
        kernArgs.args.paddedBlockSize
          < (Outcome.state (setHistogramBinCountSlot 1000
              exampleInitRenderer)).m_histogramBinCount + 16 ∧
        (16 ∣ (Outcome.state (setHistogramBinCountSlot 1000
            exampleInitRenderer)).m_histogramBinCount →
          kernArgs.args.paddedBlockSize
            = (Outcome.state (setHistogramBinCountSlot 1000
                exampleInitRenderer)).m_histogramBinCount) ∧
        blocks.byteCount = 64 * kernArgs.args.paddedBlockSize * 4 :=
  ⟨by decide, by decide,
    execHistoCalcCreate_padding (Outcome.state (setHistogramBinCountSlot 1000 exampleInitRenderer))
      { serial := 0, platform := 100, device := 101, glInterop := true }
      { context := 0, device := 101 } { name := "computeBlocks", context := 0 }
      { name := "reduceBlocks", context := 0 } (by decide) (by decide) (by decide) (by decide)
      (by decide)⟩

/-! ## Length of the cached histogram snapshot -/

theorem vectorResize_length (v : List Nat) (n : Nat) : (vectorResize v n).length = n := by
  unfold vectorResize
  simp only [List.length_append, List.length_take, List.length_replicate]
  omega

theorem execHistoCalc_ok_length (r r' : Renderer) (h : execHistoCalc r = .ok r') :
    r'.m_histogramData.length = r'.m_histogramBinCount := by
  unfold execHistoCalc at h
  simp only [bind, Except.bind] at h
  have key : ∀ r1 : Renderer, execHistoCalcPass r1 = .ok r' →
      r'.m_histogramData.length = r'.m_histogramBinCount := by
    intro r1 h1
    rw [execHistoCalcPass_ok r1 r' h1]
    exact vectorResize_length _ _
  by_cases hgl : r.m_histogramGlBuffer = none
  · rw [if_pos hgl] at h
    cases hc : execHistoCalcCreate r with
    | error e => rw [hc] at h; simp at h
    | ok r1 =>
      rw [hc] at h
      exact key r1 h
  · rw [if_neg hgl] at h
    exact key r h

theorem newImageSlot_snapshotLengthInvariant (imageData : ImageData) (imageSize : QSize)
    (filter : Bool) (r r' : Renderer) (hinv : r.snapshotLengthInvariant)
    (h : newImageSlot imageData imageSize filter r = .ok r') : r'.snapshotLengthInvariant := by
  unfold newImageSlot at h
  cases imageData with
  | nil =>
    simp only [List.isEmpty_nil, Bool.not_true, Bool.true_or, Bool.and_true, Bool.false_eq_true,
      if_false, bind, Except.bind] at h
    injection h with h
    subst h
    unfold Renderer.snapshotLengthInvariant at hinv ⊢
    simp only [execHistoDraw, execImageDraw]
    split
    · simp only [delHistogramBlocks, delImage]
      split
      · split
        · intro hne
          exact absurd rfl hne
        · exact hinv
      · exact hinv
    · exact hinv
  | cons p ps =>
    simp only [bind, Except.bind, List.isEmpty_cons, Bool.not_false, if_true, Bool.false_or] at h
    generalize (if (!r.m_imageData.isEmpty && r.m_imageSize != imageSize) = true
      then delHistogramBlocks (delImage r) else r) = r0 at h
    cases hup : newImageSlotUpload (p :: ps) imageSize filter r0 with
    | error e => rw [hup] at h; simp at h
    | ok r1 =>
      rw [hup] at h
      simp only at h
      cases hcalc : execHistoCalc r1 with
      | error e => rw [hcalc] at h; simp at h
      | ok r2 =>
        rw [hcalc] at h
        injection h with h
        subst h
        intro _
        simp only [execHistoDraw, execImageDraw]
        exact execHistoCalc_ok_length _ _ hcalc

theorem setHistogramBinCountSlot_snapshotLengthInvariant (histogramBinCount : Nat)
    (r r' : Renderer) (hinv : r.snapshotLengthInvariant)
    (h : setHistogramBinCountSlot histogramBinCount r = .ok r') :
    r'.snapshotLengthInvariant := by
  unfold setHistogramBinCountSlot at h
  by_cases hn : histogramBinCount = r.m_histogramBinCount
  · simp only [ne_eq, hn, not_true_eq_false, if_false] at h
    injection h with h
    subst h
    exact hinv
  · simp only [ne_eq, hn, not_false_eq_true, if_true, bind, Except.bind] at h
    have hdata : (delHistogram (delHistogramBlocks r)).m_imageData = r.m_imageData := by
      simp only [delHistogram, delHistogramBlocks]
      split <;> rfl
    cases hd : r.m_imageData with
    | nil =>
      simp only [hdata, hd, List.isEmpty_nil, Bool.not_true, Bool.false_eq_true, if_false] at h
      injection h with h
      subst h
      intro hne
      exact (hne rfl).elim
    | cons p ps =>
      simp only [hdata, hd, List.isEmpty_cons, Bool.not_false, if_true] at h
      split at h
      · simp at h
      · rename_i r1 hr1
        injection h with h
        subst h
        intro _
        simp only [execHistoDraw]
        exact execHistoCalc_ok_length _ _ hr1

theorem processRequests_snapshotLengthInvariant (requests : List RendererRequest)
    (r r' : Renderer) (hinv : r.snapshotLengthInvariant)
    (h : processRequests requests r = .ok r') : r'.snapshotLengthInvariant := by
  induction requests generalizing r with
  | nil =>
    simp only [processRequests] at h
    injection h with h
    subst h
    exact hinv
  | cons request rest ih =>
    simp only [processRequests, bind, Except.bind] at h
    cases hrun : request.run r with
    | error e => rw [hrun] at h; simp at h
    | ok r1 =>
      rw [hrun] at h
      refine ih r1 ?_ h
      cases request with
      | newImage imageData imageSize filter =>
        exact newImageSlot_snapshotLengthInvariant imageData imageSize filter r r1 hinv hrun
      | setHistogramBinCount histogramBinCount =>
        exact setHistogramBinCountSlot_snapshotLengthInvariant histogramBinCount r r1 hinv hrun

/-- C29 (counterexample): on the freshly constructed renderer (bin count
2048, snapshot of 2048 zeros) a set-bin-count request for 256 completes and
leaves the bin count 256 and the snapshot of length 2048. -/
theorem setHistogramBinCountSlot_snapshot_not_resized :
    (Outcome.state (setHistogramBinCountSlot 256 Renderer.constructed)).m_histogramBinCount
        = 256 ∧
      (Outcome.state (setHistogramBinCountSlot 256
        Renderer.constructed)).m_histogramData.length = 2048 ∧
      Outcome.fault (setHistogramBinCountSlot 256 Renderer.constructed) = none := by
  refine ⟨rfl, ?_, rfl⟩
  have h : (Outcome.state (setHistogramBinCountSlot 256
      Renderer.constructed)).m_histogramData = List.replicate 2048 0 := rfl
  rw [h]
  exact List.length_replicate _ _

/-- C29 (amended): starting from the constructor's state, before or after
thread initialisation on any host, for every sequence of new-image and
set-bin-count requests that the render thread processes to completion:
whenever an image is present in the state reached, the length of the cached
histogram snapshot equals the current histogram bin count. -/
theorem processRequests_snapshot_length (requests : List RendererRequest)
    (start r : Renderer)
    (hstart : start = Renderer.constructed ∨
      ∃ platforms, start = Outcome.state (threadInitSlot platforms Renderer.constructed))
    (h : processRequests requests start = .ok r) (himage : r.m_imageData ≠ []) :
    r.m_histogramData.length = r.m_histogramBinCount := by
  have hinv : start.snapshotLengthInvariant := by
    intro hne
    rcases hstart with hs | ⟨platforms, hs⟩
    · rw [hs] at hne
      exact absurd rfl hne
    · rw [hs, (threadInitSlot_state_image platforms Renderer.constructed).1] at hne
      exact absurd rfl hne
  exact processRequests_snapshotLengthInvariant requests start r hinv h himage

theorem processRequests_snapshot_length_witness :
    processRequests exampleRequests exampleInitRenderer = .ok exampleRequestsRenderer ∧
      exampleRequestsRenderer.m_imageData = [3, 4] ∧
      exampleRequestsRenderer.m_histogramBinCount = 256 ∧
      exampleRequestsRenderer.histoCalcPasses = 2 ∧
      exampleRequestsRenderer.m_histogramData.length
        = exampleRequestsRenderer.m_histogramBinCount :=
  ⟨rfl, by decide, by decide, by decide,
    processRequests_snapshot_length exampleRequests exampleInitRenderer exampleRequestsRenderer
      (Or.inr ⟨exampleGpuHost, rfl⟩) rfl (by decide)⟩

/-! ## Claim on the viewport synchronisation -/

/-- C26: for every view widget: exactly when the view size differs from the
size last applied and both view dimensions are positive, one `glViewport` call
for the view size is issued and the view size becomes the size last applied;
otherwise nothing is issued and the size last applied is unchanged; the view
size itself is never changed, and a second call right after the first
changes nothing, so it issues no `glViewport` call. -/
theorem updateGlViewportSize_spec (viewWidget : ViewWidget) :
    ((updateGlViewportSize viewWidget).glViewportCalls =
        if viewWidget.m_viewSize ≠ viewWidget.m_viewGlSize ∧ 0 < viewWidget.m_viewSize.width ∧
            0 < viewWidget.m_viewSize.height
        then viewWidget.glViewportCalls ++
          [(0, 0, viewWidget.m_viewSize.width, viewWidget.m_viewSize.height)]
        else viewWidget.glViewportCalls) ∧
      ((updateGlViewportSize viewWidget).m_viewGlSize =
        if viewWidget.m_viewSize ≠ viewWidget.m_viewGlSize ∧ 0 < viewWidget.m_viewSize.width ∧
            0 < viewWidget.m_viewSize.height
        then viewWidget.m_viewSize else viewWidget.m_viewGlSize) ∧
      (updateGlViewportSize viewWidget).m_viewSize = viewWidget.m_viewSize ∧
      updateGlViewportSize (updateGlViewportSize viewWidget)
        = updateGlViewportSize viewWidget := by
  by_cases h : viewWidget.m_viewSize ≠ viewWidget.m_viewGlSize ∧
      viewWidget.m_viewSize.width > 0 ∧ viewWidget.m_viewSize.height > 0
  · have h' : viewWidget.m_viewSize ≠ viewWidget.m_viewGlSize ∧
        0 < viewWidget.m_viewSize.width ∧ 0 < viewWidget.m_viewSize.height := h
    refine ⟨?_, ?_, ?_, ?_⟩
    · simp only [updateGlViewportSize, if_pos h, if_pos h']
    · simp only [updateGlViewportSize, if_pos h, if_pos h']
    · simp only [updateGlViewportSize, if_pos h]
    · simp only [updateGlViewportSize, if_pos h]
      simp
  · have h' : ¬ (viewWidget.m_viewSize ≠ viewWidget.m_viewGlSize ∧
        0 < viewWidget.m_viewSize.width ∧ 0 < viewWidget.m_viewSize.height) := h
    refine ⟨?_, ?_, ?_, ?_⟩
    · simp only [updateGlViewportSize, if_neg h, if_neg h']
    · simp only [updateGlViewportSize, if_neg h, if_neg h']
    · simp only [updateGlViewportSize, if_neg h]
    · simp only [updateGlViewportSize, if_neg h]

/-! ## Lemmas on the flipper frame index -/

theorem Flipper.propagateFrameIndexChange_state (showThrows : Bool) (f : Flipper) :
    (FlipperOutcome.state (f.propagateFrameIndexChange showThrows)).m_frames = f.m_frames ∧
      (FlipperOutcome.state (f.propagateFrameIndexChange showThrows)).m_frameIndex
        = f.m_frameIndex := by
  unfold Flipper.propagateFrameIndexChange
  split
  · exact ⟨rfl, rfl⟩
  · split
    · exact ⟨rfl, rfl⟩
    · split <;> exact ⟨rfl, rfl⟩

theorem Flipper.append_state (images : PyImages) (showThrows : Bool) (f : Flipper) :
    (FlipperOutcome.state (f.append images showThrows)).m_frameIndex = f.m_frameIndex ∧
      f.m_frames.length ≤ (FlipperOutcome.state (f.append images showThrows)).m_frames.length := by
  have hp := fun g : Flipper => Flipper.propagateFrameIndexChange_state showThrows g
  unfold Flipper.append
  cases images with
  | pyNone => exact ⟨rfl, le_refl _⟩
  | unsupported => exact ⟨rfl, le_refl _⟩
  | array height width =>
    simp only [bind, Except.bind, if_true]
    split
    · obtain ⟨h1, h2⟩ := hp (Flipper.propagateFrameCountChange
        { f with m_frames := f.m_frames ++
          [{ type := FrameType.PyData, nameNumber := none, size := QSize.mk width height,
             dataEmpty := true }] })
      rw [h1, h2]
      simp [Flipper.propagateFrameCountChange]
    · simp [FlipperOutcome.state, Flipper.propagateFrameCountChange]
  | iterable elementConverts =>
    simp only [bind, Except.bind]
    by_cases hall : elementConverts.all id = true
    · simp only [hall, if_true]
      by_cases hne : elementConverts.isEmpty = true
      · simp [hne, FlipperOutcome.state]
      · simp only [Bool.not_eq_true] at hne
        simp only [hne, Bool.not_false, if_true]
        split
        · obtain ⟨h1, h2⟩ := hp (Flipper.propagateFrameCountChange
            { f with m_frames := f.m_frames ++
              Flipper.appendFrames f.m_frames.length elementConverts })
          rw [h1, h2]
          simp [Flipper.propagateFrameCountChange]
        · simp [FlipperOutcome.state, Flipper.propagateFrameCountChange]
    · simp [hall, FlipperOutcome.state]

theorem Flipper.frameIndexValid_iff (f : Flipper) :
    f.frameIndexValid ↔
      (f.m_frames.length = 0 → f.m_frameIndex = 0) ∧
        (0 < f.m_frames.length → 0 ≤ f.m_frameIndex ∧ f.m_frameIndex < f.m_frames.length) := by
  unfold Flipper.frameIndexValid Flipper.getFrameCount
  constructor
  · rintro ⟨h1, h2⟩
    refine ⟨fun h => h1 (List.length_eq_zero.mp h), fun h => ?_⟩
    have := h2 (List.length_pos.mp h)
    exact this
  · rintro ⟨h1, h2⟩
    refine ⟨fun h => h1 (List.length_eq_zero.mpr h), fun h => ?_⟩
    exact h2 (List.length_pos.mpr h)

theorem Flipper.setFrameIndex_state (frameIndex : Int) (showThrows : Bool) (f : Flipper) :
    (FlipperOutcome.state (f.setFrameIndex frameIndex showThrows)).m_frames = f.m_frames ∧
      ((FlipperOutcome.state (f.setFrameIndex frameIndex showThrows)).m_frameIndex
          = f.m_frameIndex ∨
        ((FlipperOutcome.state (f.setFrameIndex frameIndex showThrows)).m_frameIndex
            = frameIndex ∧ 0 ≤ frameIndex ∧ frameIndex < f.m_frames.length)) := by
  unfold Flipper.setFrameIndex
  by_cases h1 : frameIndex = f.m_frameIndex
  · simp [h1, FlipperOutcome.state]
  · by_cases h2 : frameIndex < 0 ∨ frameIndex ≥ f.getFrameCount
    · simp [h1, h2, FlipperOutcome.state]
    · simp only [ne_eq, h1, not_false_eq_true, if_true, h2, if_false]
      obtain ⟨a, b⟩ := Flipper.propagateFrameIndexChange_state showThrows
        { f with m_frameIndex := frameIndex }
      rw [a, b]
      unfold Flipper.getFrameCount at h2
      refine ⟨rfl, Or.inr ⟨rfl, ?_, ?_⟩⟩ <;> omega

theorem Flipper.incrementFrameIndex_state (showThrows : Bool) (f : Flipper) :
    (FlipperOutcome.state (f.incrementFrameIndex showThrows)).m_frames = f.m_frames ∧
      (FlipperOutcome.state (f.incrementFrameIndex showThrows)).m_frameIndex =
        if 1 < f.m_frames.length then
          (if f.m_frameIndex + 1 ≥ f.m_frames.length then 0 else f.m_frameIndex + 1)
        else f.m_frameIndex := by
  unfold Flipper.incrementFrameIndex
  by_cases h : f.m_frames.length > 1
  · have h' : 1 < f.m_frames.length := h
    simp only [h, if_true, h']
    by_cases h2 : f.m_frameIndex + 1 ≥ (f.m_frames.length : Int)
    · simp only [h2, if_true]
      obtain ⟨a, b⟩ := Flipper.propagateFrameIndexChange_state showThrows
        { f with m_frameIndex := 0 }
      rw [a, b]
      exact ⟨rfl, rfl⟩
    · simp only [h2, if_false]
      obtain ⟨a, b⟩ := Flipper.propagateFrameIndexChange_state showThrows
        { f with m_frameIndex := f.m_frameIndex + 1 }
      rw [a, b]
      exact ⟨rfl, rfl⟩
  · have h' : ¬ 1 < f.m_frames.length := h
    simp [h, h', FlipperOutcome.state]

theorem FlipperCall.run_frameIndexValid (call : FlipperCall) (f : Flipper)
    (h : f.frameIndexValid) : (FlipperOutcome.state (call.run f)).frameIndexValid := by
  rw [Flipper.frameIndexValid_iff] at h ⊢
  obtain ⟨h1, h2⟩ := h
  cases call with
  | append images showThrows =>
    obtain ⟨a, b⟩ := Flipper.append_state images showThrows f
    simp only [FlipperCall.run]
    rw [a]
    constructor
    · intro h0
      exact h1 (by omega)
    · intro hpos
      by_cases hz : f.m_frames.length = 0
      · have := h1 hz
        omega
      · have := h2 (by omega)
        omega
  | setFrameIndex frameIndex showThrows =>
    obtain ⟨a, b⟩ := Flipper.setFrameIndex_state frameIndex showThrows f
    simp only [FlipperCall.run]
    rw [a]
    rcases b with b | ⟨b, b1, b2⟩
    · rw [b]
      exact ⟨h1, h2⟩
    · rw [b]
      exact ⟨fun h0 => by omega, fun _ => ⟨b1, b2⟩⟩
  | incrementFrameIndex showThrows =>
    obtain ⟨a, b⟩ := Flipper.incrementFrameIndex_state showThrows f
    simp only [FlipperCall.run]
    rw [a, b]
    constructor
    · intro h0
      have := h1 h0
      split_ifs <;> omega
    · intro hpos
      have := h2 hpos
      split_ifs <;> omega

theorem runFlipperCalls_frameIndexValid (calls : List FlipperCall) (f : Flipper)
    (h : f.frameIndexValid) : (runFlipperCalls calls f).frameIndexValid := by
  unfold runFlipperCalls
  induction calls generalizing f with
  | nil => exact h
  | cons call rest ih =>
    simp only [List.foldl_cons]
    exact ih _ (FlipperCall.run_frameIndexValid call f h)

/-! ## Claim on the flipper frame index -/

/-- C30: for every sequence of `append`, `setFrameIndex` and
`incrementFrameIndex` calls on a new flipper, failing calls included, and the
state `f` it leaves: the frame index is 0 when there are no frames and
otherwise at least 0 and below the frame count; `setFrameIndex(i)` with `i`
different from the current index and outside `[0, count)` throws and leaves
the state as it was; `incrementFrameIndex` with more than one frame leaves the
index at `(index + 1) mod count`, whether the frame could be shown or not,
and with at most one frame completes and changes nothing. -/
theorem flipper_frameIndex_invariant (calls : List FlipperCall) (f : Flipper)
    (hf : f = runFlipperCalls calls Flipper.constructed) :
    f.frameIndexValid ∧
      (∀ frameIndex showThrows, frameIndex ≠ f.m_frameIndex →
        (frameIndex < 0 ∨ f.getFrameCount ≤ frameIndex) →
        f.setFrameIndex frameIndex showThrows
          = .error (.frameIndexOutOfRange frameIndex (max (f.getFrameCount - 1) 0), f)) ∧
      (∀ showThrows, 1 < f.getFrameCount →
        (FlipperOutcome.state (f.incrementFrameIndex showThrows)).m_frameIndex
          = (f.m_frameIndex + 1) % f.getFrameCount) ∧
      (∀ showThrows, f.getFrameCount ≤ 1 → f.incrementFrameIndex showThrows = .ok f) := by
  have hvalid : f.frameIndexValid := by
    rw [hf]
    apply runFlipperCalls_frameIndexValid
    exact ⟨fun _ => rfl, fun h => absurd rfl h⟩
  refine ⟨hvalid, ?_, ?_, ?_⟩
  · intro frameIndex showThrows hne hout
    unfold Flipper.setFrameIndex
    have hout' : frameIndex < 0 ∨ frameIndex ≥ f.getFrameCount := by omega
    simp only [ne_eq, hne, not_false_eq_true, if_true, hout']
  · intro showThrows hcount
    unfold Flipper.getFrameCount at hcount ⊢
    have hlen : 1 < f.m_frames.length := by omega
    obtain ⟨_, b⟩ := Flipper.incrementFrameIndex_state showThrows f
    rw [b, if_pos hlen]
    obtain ⟨_, h2⟩ := (Flipper.frameIndexValid_iff f).mp hvalid
    obtain ⟨h3, h4⟩ := h2 (by omega)
    by_cases hw : f.m_frameIndex + 1 ≥ (f.m_frames.length : Int)
    · rw [if_pos hw]
      have : f.m_frameIndex + 1 = (f.m_frames.length : Int) := by omega
      rw [this]
      simp
    · rw [if_neg hw]
      rw [Int.emod_eq_of_lt (by omega) (by omega)]
  · intro showThrows hcount
    unfold Flipper.getFrameCount at hcount
    unfold Flipper.incrementFrameIndex
    have hlen : ¬ f.m_frames.length > 1 := by omega
    simp only [hlen, if_false]

theorem flipper_frameIndex_invariant_witness :
    exampleFlipper = runFlipperCalls
        [FlipperCall.append (PyImages.iterable [true, true, true]) false,
          FlipperCall.incrementFrameIndex false,
          FlipperCall.setFrameIndex 2 true]
        Flipper.constructed ∧
      exampleFlipper.m_frameIndex = 2 ∧ exampleFlipper.getFrameCount = 3 ∧
      exampleFlipper.frameIndexValid ∧
      exampleFlipper.setFrameIndex 7 false
        = .error (.frameIndexOutOfRange 7 (max (exampleFlipper.getFrameCount - 1) 0),
            exampleFlipper) ∧
      (FlipperOutcome.state (exampleFlipper.incrementFrameIndex false)).m_frameIndex
        = (exampleFlipper.m_frameIndex + 1) % exampleFlipper.getFrameCount ∧
      (FlipperOutcome.state (exampleFlipper.incrementFrameIndex false)).m_frameIndex = 0 :=
  ⟨rfl, by decide, by decide,
    (flipper_frameIndex_invariant _ exampleFlipper rfl).1,
    (flipper_frameIndex_invariant _ exampleFlipper rfl).2.1 7 false (by decide)
      (Or.inr (by decide)),
    (flipper_frameIndex_invariant _ exampleFlipper rfl).2.2.1 false (by decide),
    by decide⟩

/-! ## Lemmas on the transform engine -/

theorem glmScale_one (x y z : ℚ) : glmScale 1 x y z = Matrix.diagonal ![x, y, z, 1] := by
  unfold glmScale
  rw [Matrix.one_mul]

theorem correctionFactor_pos (imageSize viewSize : QSize)
    (hw : 0 < imageSize.width) (hh : 0 < imageSize.height)
    (hvw : 0 < viewSize.width) (hvh : 0 < viewSize.height) :
    0 < correctionFactor imageSize viewSize := by
  unfold correctionFactor imageAspectRatio
  have h1 : (0 : ℚ) < imageSize.width := by exact_mod_cast hw
  have h2 : (0 : ℚ) < imageSize.height := by exact_mod_cast hh
  have h3 : (0 : ℚ) < viewSize.width := by exact_mod_cast hvw
  have h4 : (0 : ℚ) < viewSize.height := by exact_mod_cast hvh
  positivity

/-- C22: in the exact-arithmetic model, for every image size and view size
with all dimensions positive and `c` the correction factor (image aspect ratio
over view aspect ratio): the fit-mode `pmv` is the diagonal matrix
`diag(min(1, c), min(1, 1/c), 1, 1)`; both scale factors are in `(0, 1]` and
one of them is 1; the scaled view extent has the image's aspect ratio; and
for a square image in a square view `c = 1` and `pmv` is the identity. -/
theorem fitPmv_scale (imageSize viewSize : QSize)
    (hw : 0 < imageSize.width) (hh : 0 < imageSize.height)
    (hvw : 0 < viewSize.width) (hvh : 0 < viewSize.height) :
    fitPmv imageSize viewSize =
        Matrix.diagonal ![min 1 (correctionFactor imageSize viewSize),
          min 1 (1 / correctionFactor imageSize viewSize), 1, 1] ∧
      0 < min 1 (correctionFactor imageSize viewSize) ∧
      min 1 (correctionFactor imageSize viewSize) ≤ 1 ∧
      0 < min 1 (1 / correctionFactor imageSize viewSize) ∧
      min 1 (1 / correctionFactor imageSize viewSize) ≤ 1 ∧
      (min 1 (correctionFactor imageSize viewSize) = 1 ∨
        min 1 (1 / correctionFactor imageSize viewSize) = 1) ∧
      (min 1 (correctionFactor imageSize viewSize) * (viewSize.width : ℚ)) /
          (min 1 (1 / correctionFactor imageSize viewSize) * (viewSize.height : ℚ))
        = (imageSize.width : ℚ) / (imageSize.height : ℚ) ∧
      (imageSize.width = imageSize.height → viewSize.width = viewSize.height →
        correctionFactor imageSize viewSize = 1 ∧ fitPmv imageSize viewSize = 1) := by
  have hc := correctionFactor_pos imageSize viewSize hw hh hvw hvh
  have h1 : (0 : ℚ) < imageSize.width := by exact_mod_cast hw
  have h2 : (0 : ℚ) < imageSize.height := by exact_mod_cast hh
  have h3 : (0 : ℚ) < viewSize.width := by exact_mod_cast hvw
  have h4 : (0 : ℚ) < viewSize.height := by exact_mod_cast hvh
  have hcdef : correctionFactor imageSize viewSize
      = ((imageSize.width : ℚ) / imageSize.height) / ((viewSize.width : ℚ) / viewSize.height) :=
    rfl
  by_cases hle : correctionFactor imageSize viewSize ≤ 1
  · have hinv : 1 ≤ 1 / correctionFactor imageSize viewSize := by
      rw [le_div_iff₀ hc]
      simpa using hle
    have hm1 : min 1 (correctionFactor imageSize viewSize)
        = correctionFactor imageSize viewSize := min_eq_right hle
    have hm2 : min 1 (1 / correctionFactor imageSize viewSize) = 1 := min_eq_left hinv
    rw [hm1, hm2]
    have hpmv : fitPmv imageSize viewSize
        = Matrix.diagonal ![correctionFactor imageSize viewSize, 1, 1, 1] := by
      unfold fitPmv
      rw [if_pos hle, glmScale_one]
    refine ⟨hpmv, hc, hle, one_pos, le_refl _, Or.inr rfl, ?_, ?_⟩
    · rw [hcdef]
      field_simp
      ring
    · intro hsq hvsq
      have hceq : correctionFactor imageSize viewSize = 1 := by
        rw [hcdef, hsq, hvsq]
        rw [hsq] at h1
        rw [hvsq] at h3
        field_simp
      refine ⟨hceq, ?_⟩
      rw [hpmv, hceq]
      ext i j
      fin_cases i <;> fin_cases j <;> simp [Matrix.diagonal, Matrix.one_apply]
  · have hlt : 1 < correctionFactor imageSize viewSize := lt_of_not_le hle
    have hinv : 1 / correctionFactor imageSize viewSize ≤ 1 := by
      rw [div_le_iff₀ hc]
      simpa using hlt.le
    have hinvpos : 0 < 1 / correctionFactor imageSize viewSize := by positivity
    have hm1 : min 1 (correctionFactor imageSize viewSize) = 1 := min_eq_left hlt.le
    have hm2 : min 1 (1 / correctionFactor imageSize viewSize)
        = 1 / correctionFactor imageSize viewSize := min_eq_right hinv
    rw [hm1, hm2]
    have hpmv : fitPmv imageSize viewSize
        = Matrix.diagonal ![1, 1 / correctionFactor imageSize viewSize, 1, 1] := by
      unfold fitPmv
      rw [if_neg hle, glmScale_one]
    refine ⟨hpmv, one_pos, le_refl _, hinvpos, hinv, Or.inl rfl, ?_, ?_⟩
    · rw [hcdef]
      field_simp
      ring
    · intro hsq hvsq
      exfalso
      have hceq : correctionFactor imageSize viewSize = 1 := by
        rw [hcdef, hsq, hvsq]
        rw [hsq] at h1
        rw [hvsq] at h3
        field_simp
      rw [hceq] at hlt
      exact lt_irrefl _ hlt

theorem fitPmv_scale_witness :
    0 < (QSize.mk 4 2).width ∧ 0 < (QSize.mk 4 2).height ∧
      0 < (QSize.mk 2 2).width ∧ 0 < (QSize.mk 2 2).height ∧
      fitPmv (QSize.mk 4 2) (QSize.mk 2 2) =
        Matrix.diagonal ![min 1 (correctionFactor (QSize.mk 4 2) (QSize.mk 2 2)),
          min 1 (1 / correctionFactor (QSize.mk 4 2) (QSize.mk 2 2)), 1, 1] ∧
      (min 1 (correctionFactor (QSize.mk 4 2) (QSize.mk 2 2)) = 1 ∨
        min 1 (1 / correctionFactor (QSize.mk 4 2) (QSize.mk 2 2)) = 1) :=
  ⟨by decide, by decide, by decide, by decide,
    (fitPmv_scale (QSize.mk 4 2) (QSize.mk 2 2) (by decide) (by decide) (by decide)
      (by decide)).1,
    (fitPmv_scale (QSize.mk 4 2) (QSize.mk 2 2) (by decide) (by decide) (by decide)
      (by decide)).2.2.2.2.2.1⟩

/-- C23: in the exact-arithmetic model, for every image size and view size
with all dimensions positive and `z` the fit zoom factor: the normalised
fit-mode `fragToTex` maps the view centre `(viewWidth/2, viewHeight/2, 1)` to
`z * (1/2, 1/2, 1)` with `z` positive, so to the texture centre after the
homogeneous divide; and the centering offset on an axis is non-zero exactly
when the image scaled by `z` is smaller than the view on that axis. -/
theorem fitFragToTex_centre (imageSize viewSize : QSize)
    (hw : 0 < imageSize.width) (hh : 0 < imageSize.height)
    (hvw : 0 < viewSize.width) (hvh : 0 < viewSize.height) :
    Matrix.mulVec (normaliseFragToTex imageSize (fitFragToTex imageSize viewSize))
        ![(viewSize.width : ℚ) / 2, (viewSize.height : ℚ) / 2, 1]
        = fitZoomFactor imageSize viewSize • ![(1 : ℚ) / 2, 1 / 2, 1] ∧
      0 < fitZoomFactor imageSize viewSize ∧
      (fitFragToTex imageSize viewSize 0 2 ≠ 0 ↔
        fitZoomFactor imageSize viewSize * (imageSize.width : ℚ) < (viewSize.width : ℚ)) ∧
      (fitFragToTex imageSize viewSize 1 2 ≠ 0 ↔
        fitZoomFactor imageSize viewSize * (imageSize.height : ℚ) < (viewSize.height : ℚ)) := by
  have h1 : (0 : ℚ) < imageSize.width := by exact_mod_cast hw
  have h2 : (0 : ℚ) < imageSize.height := by exact_mod_cast hh
  have h3 : (0 : ℚ) < viewSize.width := by exact_mod_cast hvw
  have h4 : (0 : ℚ) < viewSize.height := by exact_mod_cast hvh
  have hcdef : correctionFactor imageSize viewSize
      = ((imageSize.width : ℚ) / imageSize.height) / ((viewSize.width : ℚ) / viewSize.height) :=
    rfl
  by_cases hle : correctionFactor imageSize viewSize ≤ 1
  · have hz : fitZoomFactor imageSize viewSize
        = (viewSize.height : ℚ) / (imageSize.height : ℚ) := by
      unfold fitZoomFactor
      rw [if_pos hle]
    have hfit : (viewSize.height : ℚ) / imageSize.height * imageSize.width
        ≤ viewSize.width := by
      rw [hcdef, div_le_one (by positivity)] at hle
      rw [div_le_div_iff₀ h2 h4] at hle
      rw [div_mul_eq_mul_div, div_le_iff₀ h2]
      linarith
    rw [hz]
    refine ⟨?_, by positivity, ?_, ?_⟩
    · ext i
      fin_cases i <;>
        simp [normaliseFragToTex, fitFragToTex, dmat3, hle, hz, Matrix.mulVec, Matrix.dotProduct,
          Matrix.mul_apply, Fin.sum_univ_three] <;>
        field_simp <;> ring
    · simp only [fitFragToTex, dmat3, hle, if_true, hz, Matrix.mul_apply, Fin.sum_univ_three]
      simp
      constructor
      · intro hne
        rcases lt_or_eq_of_le hfit with h | h
        · exact h
        · exfalso
          apply hne
          rw [h]
          ring
      · intro hlt heq
        linarith
    · simp only [fitFragToTex, dmat3, hle, if_true, hz, Matrix.mul_apply, Fin.sum_univ_three]
      simp
      rw [div_mul_cancel₀ _ (ne_of_gt h2)]
  · have hlt : 1 < correctionFactor imageSize viewSize := lt_of_not_le hle
    have hz : fitZoomFactor imageSize viewSize
        = (viewSize.width : ℚ) / (imageSize.width : ℚ) := by
      unfold fitZoomFactor
      rw [if_neg hle]
    have hfit : (viewSize.width : ℚ) / imageSize.width * imageSize.height
        < viewSize.height := by
      rw [hcdef, one_lt_div (by positivity)] at hlt
      rw [div_lt_div_iff₀ h4 h2] at hlt
      rw [div_mul_eq_mul_div, div_lt_iff₀ h1]
      linarith
    rw [hz]
    refine ⟨?_, by positivity, ?_, ?_⟩
    · ext i
      fin_cases i <;>
        simp [normaliseFragToTex, fitFragToTex, dmat3, hle, hz, Matrix.mulVec, Matrix.dotProduct,
          Matrix.mul_apply, Fin.sum_univ_three] <;>
        field_simp <;> ring
    · simp only [fitFragToTex, dmat3, hle, if_false, hz, Matrix.mul_apply, Fin.sum_univ_three]
      simp
      rw [div_mul_cancel₀ _ (ne_of_gt h1)]
    · simp only [fitFragToTex, dmat3, hle, if_false, hz, Matrix.mul_apply, Fin.sum_univ_three]
      simp
      constructor
      · intro _
        exact hfit
      · intro _ heq
        linarith

theorem fitFragToTex_centre_witness :
    0 < (QSize.mk 2 4).width ∧ 0 < (QSize.mk 2 4).height ∧
      0 < (QSize.mk 2 2).width ∧ 0 < (QSize.mk 2 2).height ∧
      Matrix.mulVec
          (normaliseFragToTex (QSize.mk 2 4) (fitFragToTex (QSize.mk 2 4) (QSize.mk 2 2)))
          ![((QSize.mk 2 2).width : ℚ) / 2, ((QSize.mk 2 2).height : ℚ) / 2, 1]
        = fitZoomFactor (QSize.mk 2 4) (QSize.mk 2 2) • ![(1 : ℚ) / 2, 1 / 2, 1] ∧
      0 < fitZoomFactor (QSize.mk 2 4) (QSize.mk 2 2) :=
  ⟨by decide, by decide, by decide, by decide,
    (fitFragToTex_centre (QSize.mk 2 4) (QSize.mk 2 2) (by decide) (by decide) (by decide)
      (by decide)).1,
    (fitFragToTex_centre (QSize.mk 2 4) (QSize.mk 2 2) (by decide) (by decide) (by decide)
      (by decide)).2.1⟩

/-- C24: in the exact-arithmetic model, for every image size and view size
with all dimensions positive, every zoom factor `z` and pan `(px, py)`: the
manual-mode `pmv` has x scale `z * imageWidth / viewWidth`, y scale
`z * imageHeight / viewHeight` and translation
`(-2 * px / viewWidth, 2 * py / viewHeight, 0)`, nothing else off the
diagonal; so the translation is the same for every zoom factor, the
horizontal pan enters with a minus sign and the vertical pan with a plus. -/
theorem manualPmv_entries (imageSize viewSize : QSize) (zoomFactor : ℚ) (pan : ℚ × ℚ)
    (hw : 0 < imageSize.width) (hh : 0 < imageSize.height)
    (hvw : 0 < viewSize.width) (hvh : 0 < viewSize.height) :
    manualPmv imageSize viewSize zoomFactor pan =
        !![zoomFactor * (imageSize.width : ℚ) / (viewSize.width : ℚ), 0, 0,
            -(2 * pan.1 / (viewSize.width : ℚ));
          0, zoomFactor * (imageSize.height : ℚ) / (viewSize.height : ℚ), 0,
            2 * pan.2 / (viewSize.height : ℚ);
          0, 0, 1, 0;
          0, 0, 0, 1] ∧
      ∀ otherZoomFactor : ℚ, ∀ i : Fin 4,
        manualPmv imageSize viewSize otherZoomFactor pan i 3
          = manualPmv imageSize viewSize zoomFactor pan i 3 := by
  have h1 : (0 : ℚ) < imageSize.width := by exact_mod_cast hw
  have h2 : (0 : ℚ) < imageSize.height := by exact_mod_cast hh
  have h3 : (0 : ℚ) < viewSize.width := by exact_mod_cast hvw
  have h4 : (0 : ℚ) < viewSize.height := by exact_mod_cast hvh
  have key : ∀ z : ℚ, manualPmv imageSize viewSize z pan =
      !![z * (imageSize.width : ℚ) / (viewSize.width : ℚ), 0, 0,
          -(2 * pan.1 / (viewSize.width : ℚ));
        0, z * (imageSize.height : ℚ) / (viewSize.height : ℚ), 0,
          2 * pan.2 / (viewSize.height : ℚ);
        0, 0, 1, 0;
        0, 0, 0, 1] := by
    intro z
    have hc : correctionFactor imageSize viewSize ≠ 0 := by
      unfold correctionFactor imageAspectRatio
      positivity
    unfold manualPmv glmScale glmTranslate
    rw [Matrix.one_mul]
    ext i j
    fin_cases i <;> fin_cases j <;>
      simp [Matrix.mul_apply, Fin.sum_univ_four, Matrix.diagonal, Matrix.vecHead,
        Matrix.vecTail]
    all_goals (simp only [correctionFactor, imageAspectRatio] at hc ⊢; field_simp; try ring)
  refine ⟨key zoomFactor, ?_⟩
  intro z i
  rw [key z, key zoomFactor]
  fin_cases i <;> simp

theorem manualPmv_entries_witness :
    0 < (QSize.mk 4 2).width ∧ 0 < (QSize.mk 4 2).height ∧
      0 < (QSize.mk 3 5).width ∧ 0 < (QSize.mk 3 5).height ∧
      manualPmv (QSize.mk 4 2) (QSize.mk 3 5) 2 (7, 11) =
        !![2 * ((QSize.mk 4 2).width : ℚ) / ((QSize.mk 3 5).width : ℚ), 0, 0,
            -(2 * ((7 : ℚ), (11 : ℚ)).1 / ((QSize.mk 3 5).width : ℚ));
          0, 2 * ((QSize.mk 4 2).height : ℚ) / ((QSize.mk 3 5).height : ℚ), 0,
            2 * ((7 : ℚ), (11 : ℚ)).2 / ((QSize.mk 3 5).height : ℚ);
          0, 0, 1, 0;
          0, 0, 0, 1] :=
  ⟨by decide, by decide, by decide, by decide,
    (manualPmv_entries (QSize.mk 4 2) (QSize.mk 3 5) 2 (7, 11) (by decide) (by decide)
      (by decide) (by decide)).1⟩

end RisWidget
